import Mathlib

/-!
# Verification of the orca_nw_lib state-reconciliation engine

Shallow embedding of the repository's VLAN / STP-port / port-group
discover→map→reconcile pipeline (`vlan.py`, `vlan_db.py`, `stp_port.py`,
`portgroup.py`, `common.py`) and proofs about it.

Conventions:
* Python `dict.get(k)` results are `Option` values; a raw table that may be
  absent (`.get(...) or []`) is a plain list, absent meaning `[]`.
* Python exceptions are modelled as an `Option String` error component
  threaded through the state-mutating functions; `some msg` means the call
  raised and the paired state is the store at the moment of the raise
  (the source performs no rollback).
* The graph store is modelled per device as lists of entities, membership
  relationship records and interface names; the `neomodel` relationship
  `connect` is the upsert the spec describes (create the edge if absent,
  then set its relationship attributes).
-/

/-- One entry of the raw `sonic-vlan:VLAN_LIST` table. -/
structure VlanListEntry where
  vlanid : Option Nat
  name : Option String
  autostate : Option String
deriving Repr, DecidableEq

/-- One entry of the raw `sonic-vlan:VLAN_TABLE_LIST` table. -/
structure VlanTableEntry where
  name : Option String
  mtu : Option Nat
  admin_status : Option String
  oper_status : Option String
  autostate : Option String
deriving Repr, DecidableEq

/-- One entry of the raw `sonic-vlan:VLAN_MEMBER_LIST` table. -/
structure VlanMemberEntry where
  name : Option String
  ifname : Option String
  tagging_mode : Option String
deriving Repr, DecidableEq

/-- One `address` entry of the per-VLAN ipv4 detail
(`config.ip` and `config.prefix-length`, both defaulting to `""`). -/
structure Ipv4AddrEntry where
  ip : String
  pfx : String
deriving Repr, DecidableEq

/-- Raw result of `get_vlan_ip_details_from_device` after the
`openconfig-if-ip:ipv4` projection: the address list and the
static-anycast-gateway list. -/
structure IpDetails where
  addresses : List Ipv4AddrEntry
  sag : List String
deriving Repr, DecidableEq

/-- Raw result of `get_vlan_details_from_device`: the three sonic-vlan
tables (each `.get(...) or []` in the source, so absent = `[]`). -/
structure VlanDetails where
  vlan_list : List VlanListEntry
  vlan_table_list : List VlanTableEntry
  vlan_member_list : List VlanMemberEntry
deriving Repr, DecidableEq

/-- The `Vlan` graph entity (`graph_db_models.Vlan`): scalar properties as
used by `vlan.py` / `vlan_db.py`.  Properties not passed to the constructor
default to absent. -/
structure Vlan where
  vlanid : Option Nat
  name : Option String
  mtu : Option Nat := none
  admin_status : Option String := none
  oper_status : Option String := none
  autostate : Option String := none
  ip_address : Option String := none
  sag_ip_address : Option String := none
deriving Repr, DecidableEq

/-- Modelled from the spec: `VlanAutoState` is imported from `common.py` but
the class is missing from the sources; the spec names "an autostate default"
token, and the sibling enum `VlanTagMode` in `common.py` stringifies to its
member name, so `str(VlanAutoState.disable)` is the token `"disable"`. -/
def VlanAutoState_disable : String := "disable"

/-- The first-match ipv4 selection loop of `_create_vlan_db_obj`: the first
address entry whose `ip` and `prefix-length` are both non-empty yields
`f"{ip}/{pfx}"`; no qualifying entry yields `None`. -/
def firstIpv4 : List Ipv4AddrEntry → Option String
  | [] => none
  | a :: rest =>
    if a.ip ≠ "" ∧ a.pfx ≠ "" then some (a.ip ++ "/" ++ a.pfx) else firstIpv4 rest

/-- Construction of one `Vlan` from one `VLAN_LIST` entry in
`_create_vlan_db_obj` (`vlan.py`), including the derived per-name ip fetch
`ipd` and the autostate default. -/
def mkVlanFromListEntry (ipd : Option String → IpDetails) (e : VlanListEntry) : Vlan :=
  { vlanid := e.vlanid
    name := e.name
    ip_address := firstIpv4 (ipd e.name).addresses
    sag_ip_address := (ipd e.name).sag.head?
    autostate := some (e.autostate.getD VlanAutoState_disable) }

/-- Effect of one `VLAN_TABLE_LIST` row on one mapped entity: on a name
match the row's `mtu`, `admin_status`, `oper_status` and `autostate` are
written onto the entity (absent values included). -/
def applyTableRow (t : VlanTableEntry) (v : Vlan) : Vlan :=
  if v.name = t.name then
    { v with mtu := t.mtu, admin_status := t.admin_status,
             oper_status := t.oper_status, autostate := t.autostate }
  else v

/-- The `VLAN_TABLE_LIST` join loop of `_create_vlan_db_obj`: for each table
row, every mapped entity with a matching name is updated in place. -/
def applyTable (tbl : List VlanTableEntry) (vlans : List Vlan) : List Vlan :=
  tbl.foldl (fun vs t => vs.map (applyTableRow t)) vlans

/-- The member-grouping loop of `_create_vlan_db_obj`: the raw member
entries whose `name` equals the entity's name. -/
def membersFor (mems : List VlanMemberEntry) (v : Vlan) : List VlanMemberEntry :=
  mems.filter (fun m => v.name == m.name)

/-- `_create_vlan_db_obj` (`vlan.py`), pure part: the raw tables and the
per-name ip-detail fetch are inputs; the result is the snapshot association
(entity, member list) in `VLAN_LIST` order (the Python dict keyed by the
freshly constructed, pairwise-distinct entity objects preserves insertion
order). -/
def create_vlan_db_obj (ipd : Option String → IpDetails) (d : VlanDetails) :
    List (Vlan × List VlanMemberEntry) :=
  let vlans := d.vlan_list.map (mkVlanFromListEntry ipd)
  let vlans := applyTable d.vlan_table_list vlans
  vlans.map (fun v => (v, membersFor d.vlan_member_list v))

/-- One VLAN-membership relationship record in the store: the edge between
the vlan entity (by its natural name) and an interface entity, carrying
`tagging_mode`. -/
structure MemRel where
  vlanName : Option String
  ifName : String
  tagging_mode : Option String
deriving Repr, DecidableEq

/-- An STP_PORT graph entity (`graph_db_models.STP_PORT`) as built in
`stp_port.py`. -/
structure STP_PORT where
  if_name : Option String
  edge_port : Option String
  link_type : Option String
  guard : Option String
  bpdu_filter : Option Bool
  bpdu_guard : Option Bool
  bpdu_guard_port_shutdown : Option Bool
  portfast : Option Bool
  uplink_fast : Option Bool
  cost : Option Nat
  port_priority : Option Nat
  stp_enabled : Option Bool
deriving Repr, DecidableEq

/-- The store's per-device state: the vlan entities attached to the device,
the vlan-membership relationships, the interface entities (by name, owned by
the device and read-only for this engine) and the STP_PORT entities. -/
structure DevState where
  vlans : List Vlan
  memberRels : List MemRel
  interfaces : List String
  stp_ports : List STP_PORT
deriving Repr, DecidableEq

/-- Result shape of `get_vlan_obj_from_db` for a present device:
`device.vlans.all()` (a list) when the name argument is falsy, otherwise
`device.vlans.get_or_none(name=...)` (a node or `None`). -/
inductive VlanQuery where
  | all (vs : List Vlan)
  | single (v : Option Vlan)
deriving Repr, DecidableEq

/-- The device-present core of `get_vlan_obj_from_db` (`vlan_db.py`); a
Python falsy name (`None` or `""`) selects the `all()` branch. -/
def devVlanQuery (d : DevState) (vlan_name : Option String) : VlanQuery :=
  match vlan_name with
  | none => .all d.vlans
  | some nm =>
    if nm = "" then .all d.vlans
    else .single (d.vlans.find? (fun v => v.name == some nm))

/-- Modelled from the spec: `getInterfaceOfDeviceFromDB` (`interface_db.py`)
is not among the sources; per the spec the Interface Resolver resolves an
interface name to an existing interface entity of the device, absence being
a valid outcome rather than an error. -/
def getInterfaceOfDeviceFromDB (d : DevState) (ifname : Option String) : Option String :=
  match ifname with
  | none => none
  | some n => if d.interfaces.contains n then some n else none

/-- `copy_vlan_obj_prop` (`vlan_db.py`): copies exactly `vlanid`, `name`,
`mtu`, `admin_status` and `oper_status` from the source entity onto the
target; the target's other properties are untouched. -/
def copy_vlan_obj_prop (target : Vlan) (source : Vlan) : Vlan :=
  { target with
    vlanid := source.vlanid
    name := source.name
    mtu := source.mtu
    admin_status := source.admin_status
    oper_status := source.oper_status }

/-- Replace the first list element satisfying `p` by its `f`-image
(in-place update of the matched stored node). -/
def replaceFirst (p : Vlan → Bool) (f : Vlan → Vlan) : List Vlan → List Vlan
  | [] => []
  | v :: rest => if p v then f v :: rest else v :: replaceFirst p f rest

/-- Remove the first list element satisfying `p`. -/
def removeFirst (p : Vlan → Bool) : List Vlan → List Vlan
  | [] => []
  | v :: rest => if p v then rest else v :: removeFirst p rest

/-- `del_vlan_from_db` (`vlan_db.py`) for a present device:
`get_or_none(name=...)`, and on a hit the node is deleted together with its
membership relationships (a graph-node delete detaches its edges). -/
def del_vlan_from_dev (d : DevState) (vlan_name : Option String) : DevState :=
  match d.vlans.find? (fun v => v.name == vlan_name) with
  | none => d
  | some _ =>
    { d with
      vlans := removeFirst (fun w => w.name == vlan_name) d.vlans
      memberRels := d.memberRels.filter (fun r => ¬ r.vlanName == vlan_name) }

/-- `saved_vlan.memberInterfaces.connect(intf)` followed by the
`tagging_mode` assignment and `mem_rel.save()` in `insert_vlan_in_db`:
the spec's step 2 "create/update the relationship … setting
relationship-scoped attributes" — an upsert of the edge keyed by
(vlan name, interface name). -/
def connectMember (d : DevState) (vname : Option String) (ifn : String)
    (tm : Option String) : DevState :=
  if d.memberRels.any (fun r => r.vlanName == vname && r.ifName == ifn) then
    { d with
      memberRels := d.memberRels.map (fun r =>
        if r.vlanName == vname && r.ifName == ifn then { r with tagging_mode := tm } else r) }
  else
    { d with memberRels := d.memberRels ++ [⟨vname, ifn, tm⟩] }

/-- The membership loop inside `insert_vlan_in_db` for one snapshot entry:
for each raw member entry, `mem_rel` is the connected relationship when
`saved_vlan` is truthy and the interface resolves, and `None` otherwise;
the source then assigns `mem_rel.tagging_mode` and saves unconditionally,
so an unresolved member raises `AttributeError` on the `None` value. -/
def memberLoop (d : DevState) (sv : Option Vlan) :
    List VlanMemberEntry → DevState × Option String
  | [] => (d, none)
  | m :: rest =>
    match sv with
    | none => (d, some "AttributeError: NoneType has no attribute tagging_mode")
    | some v =>
      match getInterfaceOfDeviceFromDB d m.ifname with
      | none => (d, some "AttributeError: NoneType has no attribute tagging_mode")
      | some ifn => memberLoop (connectMember d v.name ifn m.tagging_mode) sv rest

/-- One iteration of the upsert loop of `insert_vlan_in_db` (`vlan_db.py`):
look the entity up by name; a truthy single hit is updated in place via
`copy_vlan_obj_prop` and re-connected, a falsy result saves and connects the
new entity (a truthy `all()` list — only reachable for a falsy name — would
make `copy_vlan_obj_prop` assign attributes on a Python list and raise);
then `saved_vlan` is re-fetched and the membership loop runs. -/
def insertEntry (d : DevState) (p : Vlan × List VlanMemberEntry) :
    DevState × Option String :=
  let step1 : DevState × Option String :=
    match devVlanQuery d p.1.name with
    | .all vs =>
      if vs.isEmpty then ({ d with vlans := d.vlans ++ [p.1] }, none)
      else (d, some "AttributeError: list has no attribute vlanid")
    | .single (some _) =>
      ({ d with vlans := replaceFirst (fun w => w.name == p.1.name)
                  (fun w => copy_vlan_obj_prop w p.1) d.vlans }, none)
    | .single none => ({ d with vlans := d.vlans ++ [p.1] }, none)
  match step1 with
  | (d1, some e) => (d1, some e)
  | (d1, none) =>
    match devVlanQuery d1 p.1.name with
    | .all vs =>
      if p.2.isEmpty then (d1, none)
      else if vs.isEmpty then
        (d1, some "AttributeError: NoneType has no attribute tagging_mode")
      else (d1, some "AttributeError: list has no attribute memberInterfaces")
    | .single sv => memberLoop d1 sv p.2

/-- The upsert loop of `insert_vlan_in_db` over the whole snapshot; a raise
aborts the loop with the store as mutated so far. -/
def insertLoop (d : DevState) :
    List (Vlan × List VlanMemberEntry) → DevState × Option String
  | [] => (d, none)
  | p :: rest =>
    match insertEntry d p with
    | (d', none) => insertLoop d' rest
    | (d', some e) => (d', some e)

/-- The natural-key list of a snapshot (the names of its entities, in
order). -/
def snapNames (snap : List (Vlan × List VlanMemberEntry)) : List (Option String) :=
  snap.map (fun q => q.1.name)

/-- The stale-pruning loop of `insert_vlan_in_db`: iterate over the list of
vlans currently in the store and delete every one not present in the
snapshot.  Modelled from the spec for the membership test: the source writes
`vlan_in_db not in vlans_obj_vs_mem`, whose semantics rest on the entity
equality of the missing graph model; spec §4.2 step 3 prunes "any whose
natural key is not in the new snapshot". -/
def pruneStale (d : DevState) (snap : List (Vlan × List VlanMemberEntry)) : DevState :=
  d.vlans.foldl
    (fun acc v =>
      if (snapNames snap).contains v.name then acc else del_vlan_from_dev acc v.name)
    d

/-- `insert_vlan_in_db` (`vlan_db.py`) on one device's state: the upsert
loop over the snapshot followed, when no exception was raised, by the
stale-pruning loop. -/
def insert_vlan_in_db (d : DevState) (snap : List (Vlan × List VlanMemberEntry)) :
    DevState × Option String :=
  match insertLoop d snap with
  | (d', none) => (pruneStale d' snap, none)
  | r => r

/-- The whole store: the registered devices keyed by management IP. -/
structure DB where
  devs : List (String × DevState)
deriving Repr, DecidableEq

/-- Modelled from the spec: `get_device_db_obj` (`device_db.py`) is not
among the sources; per the spec the Device Registry resolves a device by
management IP, an unknown IP resolving to no device. -/
def get_device_db_obj (db : DB) (ip : String) : Option DevState :=
  (db.devs.find? (fun q => q.1 == ip)).map (fun q => q.2)

/-- `get_vlan_obj_from_db` (`vlan_db.py`) at store level: unlike
`del_vlan_from_db`, it does not guard against an unregistered device, so
`device.vlans` on `None` raises. -/
def get_vlan_obj_from_db (db : DB) (ip : String) (vlan_name : Option String) :
    Except String VlanQuery :=
  match get_device_db_obj db ip with
  | none => .error "AttributeError: NoneType has no attribute vlans"
  | some d => .ok (devVlanQuery d vlan_name)

/-- `get_vlan_mem_ifcs_from_db` (`vlan_db.py`) for a present device: the
member-interface names of the named vlan, `None` when the device has no
vlans or the named vlan is absent. -/
def get_vlan_mem_ifcs_from_dev (d : DevState) (vlan_name : Option String) :
    Option (List String) :=
  if d.vlans.isEmpty then none
  else
    match d.vlans.find? (fun v => v.name == vlan_name) with
    | none => none
    | some v => some ((d.memberRels.filter (fun r => r.vlanName == v.name)).map
        (fun r => r.ifName))

/-- The JSON view `_getJson` (`vlan.py`) builds per entity: its properties
plus the member-interface names (`or []`). -/
structure VlanJson where
  props : Vlan
  members : List String
deriving Repr, DecidableEq

/-- `_getJson` (`vlan.py`) for a present device. -/
def getJson (d : DevState) (v : Vlan) : VlanJson :=
  { props := v, members := (get_vlan_mem_ifcs_from_dev d v.name).getD [] }

/-- Result of `get_vlan`: `None`, a single JSON object, or a list. -/
inductive GetVlanResult where
  | nothing
  | one (j : VlanJson)
  | many (js : List VlanJson)
deriving Repr, DecidableEq

/-- `get_vlan` (`vlan.py`) at store level: reads from the store only; an
unregistered device raises from `get_vlan_obj_from_db`; a `None` single
lookup returns `None`; otherwise the JSON view (a list for a falsy name). -/
def get_vlan (db : DB) (ip : String) (vlan_name : Option String) :
    Except String GetVlanResult :=
  match get_device_db_obj db ip with
  | none => .error "AttributeError: NoneType has no attribute vlans"
  | some d =>
    match devVlanQuery d vlan_name with
    | .all vs => .ok (.many (vs.map (getJson d)))
    | .single none => .ok .nothing
    | .single (some v) => .ok (.one (getJson d v))

/-- Replace one device's state in the store. -/
def updateDev (db : DB) (ip : String) (d : DevState) : DB :=
  { devs := db.devs.map (fun q => if q.1 == ip then (q.1, d) else q) }

/-- The per-device loop of `discover_vlan` (`vlan.py`): for each device,
fetch the raw vlan details, map them and reconcile; the `except` clause
logs and re-raises, so a failure aborts the loop and the remaining devices
are not visited.  `fetch` is the transport call
`get_vlan_details_from_device`, `ipd ip` the per-device ip-detail fetch. -/
def discoverVlanLoop (fetch : String → Except String VlanDetails)
    (ipd : String → Option String → IpDetails) (db : DB) :
    List String → DB × Option String
  | [] => (db, none)
  | ip :: rest =>
    match get_device_db_obj db ip with
    | none => (db, some "AttributeError: NoneType has no attribute mgt_ip")
    | some d =>
      match fetch ip with
      | .error e => (db, some e)
      | .ok det =>
        match insert_vlan_in_db d (create_vlan_db_obj (ipd ip) det) with
        | (d', none) => discoverVlanLoop fetch ipd (updateDev db ip d') rest
        | (d', some e) => (updateDev db ip d', some e)

/-- `discover_vlan` (`vlan.py`): one device when an IP is given (an
unregistered IP yields `[None]` and raises on `device.mgt_ip` inside the
loop's `try`), otherwise all registered devices. -/
def discover_vlan (fetch : String → Except String VlanDetails)
    (ipd : String → Option String → IpDetails) (db : DB)
    (device_ip : Option String) : DB × Option String :=
  match device_ip with
  | some ip => discoverVlanLoop fetch ipd db [ip]
  | none => discoverVlanLoop fetch ipd db (db.devs.map (fun q => q.1))

/-- One entry of the raw `openconfig-spanning-tree:interface` list, with the
`config` sub-object flattened (each field a `config.get(...)`). -/
structure StpPortConfigRaw where
  name : Option String
  edge_port : Option String
  link_type : Option String
  guard : Option String
  bpdu_filter : Option Bool
  bpdu_guard : Option Bool
  bpdu_guard_port_shutdown : Option Bool
  portfast : Option Bool
  uplink_fast : Option Bool
  cost : Option Nat
  port_priority : Option Nat
  stp_enabled : Option Bool
deriving Repr, DecidableEq

/-- Python `s.split(sep)` over the character list (fields between
occurrences of the one-character separator). -/
def splitFields (sep : Char) : List Char → List (List Char)
  | [] => [[]]
  | c :: rest =>
    match splitFields sep rest with
    | [] => [[]]
    | f :: fs => if c = sep then [] :: f :: fs else (c :: f) :: fs

/-- `oc_str.split(":")[1]`: the field after the first colon, absent when the
string has no colon (where the Python indexing would raise `IndexError`). -/
def ocSuffix (s : String) : Option String :=
  ((splitFields ':' s.data).get? 1).map (fun l => String.mk l)

/-- Modelled from the spec: `STPPortEdgePort.getSTPPortEdgePortStrFromOCStr`
is imported from `common.py` but the class is missing from the sources; its
siblings `PortFec.getFecStrFromOCStr` and `getSpeedStrFromOCStr` in
`common.py` both take the piece after the colon of the openconfig string. -/
def getSTPPortEdgePortStrFromOCStr (s : String) : Except String String :=
  match ocSuffix s with
  | some r => .ok r
  | none => .error "IndexError: list index out of range"

/-- Construction of one `STP_PORT` from one raw interface entry in
`_create_stp_port_graph_object` (`stp_port.py`); Python-falsy `edge_port`,
`link_type` and `guard` values become absent. -/
def mkStpPort (p : StpPortConfigRaw) : Except String STP_PORT := do
  let ep ←
    match p.edge_port with
    | none => pure none
    | some s =>
      if s = "" then pure none
      else do
        let r ← getSTPPortEdgePortStrFromOCStr s
        pure (some r)
  pure
    { if_name := p.name
      edge_port := ep
      link_type := match p.link_type with
                   | some s => if s = "" then none else some s
                   | none => none
      guard := match p.guard with
               | some s => if s = "" then none else some s
               | none => none
      bpdu_filter := p.bpdu_filter
      bpdu_guard := p.bpdu_guard
      bpdu_guard_port_shutdown := p.bpdu_guard_port_shutdown
      portfast := p.portfast
      uplink_fast := p.uplink_fast
      cost := p.cost
      port_priority := p.port_priority
      stp_enabled := p.stp_enabled }

/-- The mapping loop of `_create_stp_port_graph_object` over the raw
interface entries (every snapshot entry is paired with the one shared empty
member list in the source, so the snapshot is just the entity list). -/
def mapStpPorts : List StpPortConfigRaw → Except String (List STP_PORT)
  | [] => .ok []
  | p :: rest => do
    let e ← mkStpPort p
    let tail ← mapStpPorts rest
    .ok (e :: tail)

/-- `_create_stp_port_graph_object` (`stp_port.py`): the fetch is wrapped in
`try`/`except`; a transport failure is logged and an empty snapshot `{}` is
returned instead of propagating the error. -/
def create_stp_port_graph_object (fetchStp : String → Except String (List StpPortConfigRaw))
    (ip : String) : Except String (List STP_PORT) :=
  match fetchStp ip with
  | .error _ => .ok []
  | .ok ports => mapStpPorts ports

/-- Modelled from the spec: `insert_device_stp_port_in_db` (`stp_port_db.py`)
is not among the sources; per spec §4.2 the Reconciler upserts each snapshot
entity by its natural key (`if_name`), copying all mutable scalar attributes
in place, and then prunes every stored entity whose key is absent from the
snapshot. -/
def insert_device_stp_port_in_db (d : DevState) (snap : List STP_PORT) : DevState :=
  let upserted := snap.foldl
    (fun ports p =>
      if ports.any (fun q => q.if_name == p.if_name) then
        ports.map (fun q => if q.if_name == p.if_name then p else q)
      else ports ++ [p])
    d.stp_ports
  { d with stp_ports := upserted.filter (fun q => snap.any (fun p => p.if_name == q.if_name)) }

/-- The per-device loop of `discover_stp_port` (`stp_port.py`): mapping
failures inside the `try` are logged and re-raised, aborting the loop. -/
def discoverStpLoop (fetchStp : String → Except String (List StpPortConfigRaw))
    (db : DB) : List String → DB × Option String
  | [] => (db, none)
  | ip :: rest =>
    match get_device_db_obj db ip with
    | none => (db, some "AttributeError: NoneType has no attribute mgt_ip")
    | some d =>
      match create_stp_port_graph_object fetchStp ip with
      | .error e => (db, some e)
      | .ok snap =>
        discoverStpLoop fetchStp (updateDev db ip (insert_device_stp_port_in_db d snap)) rest

/-- `discover_stp_port` (`stp_port.py`): one device when an IP is given,
otherwise all registered devices. -/
def discover_stp_port (fetchStp : String → Except String (List StpPortConfigRaw))
    (db : DB) (device_ip : Option String) : DB × Option String :=
  match device_ip with
  | some ip => discoverStpLoop fetchStp db [ip]
  | none => discoverStpLoop fetchStp db (db.devs.map (fun q => q.1))

/-- Python `s.replace(old, new)` for a non-empty pattern: scan left to
right, replacing non-overlapping occurrences and continuing after each
replacement. -/
def pyReplace (old new : List Char) : List Char → List Char
  | [] => []
  | c :: rest =>
    if h : old.isPrefixOf (c :: rest) ∧ old ≠ [] then
      new ++ pyReplace old new ((c :: rest).drop old.length)
    else c :: pyReplace old new rest
termination_by l => l.length
decreasing_by
  · have hlen : 0 < old.length := List.length_pos.mpr h.2
    simp only [List.length_drop, List.length_cons]
    omega
  · simp

/-- Decimal-digit accumulation, the value of a digit string. -/
def parseDigitsAcc (acc : Nat) : List Char → Nat
  | [] => acc
  | c :: rest => parseDigitsAcc (acc * 10 + (c.toNat - 48)) rest

/-- Python `int(s)` restricted to plain non-empty decimal-digit strings (the
interface-number form the source applies it to); anything else raises
`ValueError`. -/
def pyIntChars (l : List Char) : Except String Nat :=
  if l ≠ [] ∧ l.all (fun c => c.isDigit) then .ok (parseDigitsAcc 0 l)
  else .error "ValueError: invalid literal for int"

/-- The decimal digit characters. -/
def digitChar : Nat → Char
  | 0 => '0'
  | 1 => '1'
  | 2 => '2'
  | 3 => '3'
  | 4 => '4'
  | 5 => '5'
  | 6 => '6'
  | 7 => '7'
  | 8 => '8'
  | _ => '9'

/-- Canonical decimal rendering of a natural number, Python `str(n)`. -/
def natDigits (n : Nat) : List Char :=
  if h : n < 10 then [digitChar n]
  else natDigits (n / 10) ++ [digitChar (n % 10)]
termination_by n
decreasing_by
  exact Nat.div_lt_self (by omega) (by omega)

/-- `getSpeedStrFromOCStr` (`common.py`): `oc_str.split(":")[1]`, raising
`AttributeError` on `None` and `IndexError` when there is no colon. -/
def getSpeedStrFromOCStrE (o : Option String) : Except String String :=
  match o with
  | none => .error "AttributeError: NoneType has no attribute split"
  | some s =>
    match ocSuffix s with
    | some r => .ok r
    | none => .error "IndexError: list index out of range"

/-- The `valid-speeds` comprehension of `_create_port_group_graph_objects`:
iterating `None` raises `TypeError`; each element goes through
`getSpeedStrFromOCStr`. -/
def mapOcSpeeds : List String → Except String (List String)
  | [] => .ok []
  | s :: rest => do
    let r ← getSpeedStrFromOCStrE (some s)
    let t ← mapOcSpeeds rest
    .ok (r :: t)

/-- `valid-speeds` handling including the `None` case. -/
def ocSpeedListFrom (o : Option (List String)) : Except String (List String) :=
  match o with
  | none => .error "TypeError: NoneType is not iterable"
  | some l => mapOcSpeeds l

/-- `int(member_if.replace("Ethernet", ""))` on an optional raw field:
`None` raises `AttributeError`, a non-numeric remainder raises
`ValueError`. -/
def strToEthNum (o : Option String) : Except String Nat :=
  match o with
  | none => .error "AttributeError: NoneType has no attribute replace"
  | some s => pyIntChars (pyReplace "Ethernet".data [] s.data)

/-- The member-range expansion loop of `_create_port_group_graph_objects`
(`portgroup.py`): `for eth_num in range(a, b + 1): "Ethernet{eth_num}"`. -/
def expandEthernet (a b : Nat) : List String :=
  (List.range' a (b + 1 - a)).map (fun n => String.mk ("Ethernet".data ++ natDigits n))

/-- The `state` sub-object of one raw `openconfig-port-group:port-group`
entry, fields as read by `_create_port_group_graph_objects`. -/
structure PortGroupStateRaw where
  pg_id : Option String
  speed : Option String
  default_speed : Option String
  valid_speeds : Option (List String)
  member_if_start : Option String
  member_if_end : Option String
deriving Repr, DecidableEq

/-- A `PortGroup` graph entity (`graph_db_models.PortGroup`) as built in
`portgroup.py`. -/
structure PortGroup where
  port_group_id : Option String
  speed : String
  valid_speeds : List String
  default_speed : String
deriving Repr, DecidableEq

/-- `_create_port_group_graph_objects` (`portgroup.py`), pure part: one
(entity, member-name list) pair per raw entry, evaluated in source order
(default-speed, valid-speeds, speed, then the member range); the first
exception propagates. -/
def create_port_group_graph_objects :
    List PortGroupStateRaw → Except String (List (PortGroup × List String))
  | [] => .ok []
  | r :: rest => do
    let ds ← getSpeedStrFromOCStrE r.default_speed
    let vs ← ocSpeedListFrom r.valid_speeds
    let sp ← getSpeedStrFromOCStrE r.speed
    let a ← strToEthNum r.member_if_start
    let b ← strToEthNum r.member_if_end
    let tail ← create_port_group_graph_objects rest
    .ok (({ port_group_id := r.pg_id, speed := sp, valid_speeds := vs,
            default_speed := ds }, expandEthernet a b) :: tail)

/-- Observable events of a configuration-mutation operation: the underlying
device (transport) call and a discovery+reconciliation invocation for a
resource kind. -/
inductive DispatchEv where
  | deviceCall (op : String)
  | discovery (kind : String)
deriving Repr, DecidableEq

/-- An operation's trace: the events in order and the exception propagated
to the caller, if any. -/
structure Trace where
  evs : List DispatchEv
  err : Option String
deriving Repr, DecidableEq

/-- Python `try: body except: log; raise finally: fin`: the finaliser's
events always run after the body's; the body's exception propagates after
the finaliser (a finaliser exception would replace it). -/
def tryRaiseFinally (body fin : Trace) : Trace :=
  { evs := body.evs ++ fin.evs
    err := match fin.err with
           | some e => some e
           | none => body.err }

/-- The underlying transport mutation call; `res` is its outcome (`some`
an exception). -/
def deviceCallTrace (op : String) (res : Option String) : Trace :=
  { evs := [.deviceCall op], err := res }

/-- A discovery invocation as a trace event (its own outcome is not at
issue for the dispatcher contract). -/
def discoveryTrace (kind : String) : Trace := { evs := [.discovery kind], err := none }

/-- `del_vlan` (`vlan.py`): try the device deletion, log and re-raise on
failure, `finally: discover_vlan(device_ip)`. -/
def del_vlan_trace (res : Option String) : Trace :=
  tryRaiseFinally (deviceCallTrace "del_vlan_from_device" res) (discoveryTrace "vlan")

/-- `config_vlan` (`vlan.py`). -/
def config_vlan_trace (res : Option String) : Trace :=
  tryRaiseFinally (deviceCallTrace "config_vlan_on_device" res) (discoveryTrace "vlan")

/-- `add_vlan_mem` (`vlan.py`). -/
def add_vlan_mem_trace (res : Option String) : Trace :=
  tryRaiseFinally (deviceCallTrace "add_vlan_mem_interface_on_device" res)
    (discoveryTrace "vlan")

/-- `del_vlan_mem` (`vlan.py`). -/
def del_vlan_mem_trace (res : Option String) : Trace :=
  tryRaiseFinally (deviceCallTrace "del_vlan_mem_interface_on_device" res)
    (discoveryTrace "vlan")

/-- `set_port_group_speed` (`portgroup.py`): try the device call, log and
re-raise on failure, `finally: discover_port_groups(device_ip)`. -/
def set_port_group_speed_trace (res : Option String) : Trace :=
  tryRaiseFinally (deviceCallTrace "set_port_group_speed_on_device" res)
    (discoveryTrace "port_group")

/-- `delete_stp_port_member` (`stp_port.py`): try the device call, log and
re-raise on failure — there is no `finally` clause and no discovery call in
the function body (the `check_gnmi_subscription_and_apply_config` decorator
is external to the engine and the spec describes no discovery in it). -/
def delete_stp_port_member_trace (res : Option String) : Trace :=
  deviceCallTrace "delete_stp_port_member_from_device" res

/-- Whether a trace contains a discovery invocation. -/
def hasDiscovery (t : Trace) : Bool :=
  t.evs.any (fun e => match e with | .discovery _ => true | _ => false)

/-- The cumulative effect of all `VLAN_TABLE_LIST` rows on one mapped
entity (pointwise form of `applyTable`). -/
def foldRows (tbl : List VlanTableEntry) (v : Vlan) : Vlan :=
  tbl.foldl (fun w t => applyTableRow t w) v

/-- The names of the vlan entities attached to a device. -/
def devVlanNames (d : DevState) : List (Option String) :=
  d.vlans.map (fun v => v.name)

/-- The five scalar properties `copy_vlan_obj_prop` transfers agree. -/
def scalarCopyEq (v w : Vlan) : Prop :=
  v.vlanid = w.vlanid ∧ v.name = w.name ∧ v.mtu = w.mtu ∧
  v.admin_status = w.admin_status ∧ v.oper_status = w.oper_status

/-- The entity a successful reconciliation leaves in the store for snapshot
entry `p`, starting from store state `s`: the in-place
`copy_vlan_obj_prop` update of the pre-existing entity of that name, or the
snapshot entity itself when none existed. -/
def expectedEntity (s : DevState) (p : Vlan × List VlanMemberEntry) : Vlan :=
  match s.vlans.find? (fun w => w.name == p.1.name) with
  | some v0 => copy_vlan_obj_prop v0 p.1
  | none => p.1

theorem applyTable_cons (t : VlanTableEntry) (tbl : List VlanTableEntry)
    (vlans : List Vlan) :
    applyTable (t :: tbl) vlans = applyTable tbl (vlans.map (applyTableRow t)) := rfl

theorem applyTable_eq_map (tbl : List VlanTableEntry) (vlans : List Vlan) :
    applyTable tbl vlans = vlans.map (foldRows tbl) := by
  induction tbl generalizing vlans with
  | nil => exact (List.map_id' vlans).symm
  | cons t tbl ih =>
    rw [applyTable_cons, ih, List.map_map]
    rfl

theorem applyTableRow_name (t : VlanTableEntry) (v : Vlan) :
    (applyTableRow t v).name = v.name := by
  unfold applyTableRow
  split <;> rfl

theorem foldRows_cons (t : VlanTableEntry) (tbl : List VlanTableEntry) (v : Vlan) :
    foldRows (t :: tbl) v = foldRows tbl (applyTableRow t v) := rfl

theorem foldRows_name (tbl : List VlanTableEntry) (v : Vlan) :
    (foldRows tbl v).name = v.name := by
  induction tbl generalizing v with
  | nil => rfl
  | cons t tbl ih => rw [foldRows_cons, ih, applyTableRow_name]

theorem foldRows_no_match (tbl : List VlanTableEntry) (v : Vlan)
    (h : ∀ t ∈ tbl, v.name ≠ t.name) : foldRows tbl v = v := by
  induction tbl with
  | nil => rfl
  | cons t tbl ih =>
    rw [foldRows_cons]
    have ht : applyTableRow t v = v := by
      unfold applyTableRow
      rw [if_neg (h t (by simp))]
    rw [ht]
    exact ih (fun t' h' => h t' (by simp [h']))

theorem foldRows_unique_match (tbl : List VlanTableEntry) (v : Vlan)
    (t : VlanTableEntry)
    (h : tbl.filter (fun t' => t'.name == v.name) = [t]) :
    foldRows tbl v =
      { v with mtu := t.mtu, admin_status := t.admin_status,
               oper_status := t.oper_status, autostate := t.autostate } := by
  induction tbl generalizing v with
  | nil => simp at h
  | cons t' tbl ih =>
    simp only [List.filter_cons] at h
    by_cases hm : t'.name == v.name
    · rw [if_pos hm] at h
      obtain ⟨heq, hrest⟩ := List.cons_eq_cons.mp h
      subst heq
      have hv : v.name = t'.name := (eq_of_beq hm).symm
      rw [foldRows_cons]
      have hrow : applyTableRow t' v =
          { v with mtu := t'.mtu, admin_status := t'.admin_status,
                   oper_status := t'.oper_status, autostate := t'.autostate } := by
        unfold applyTableRow
        rw [if_pos hv]
      rw [hrow]
      apply foldRows_no_match
      intro t'' ht''
      have hnb : ¬ (t''.name == v.name) = true := by
        intro hb
        have hmem : t'' ∈ tbl.filter (fun t'' => t''.name == v.name) := by
          rw [List.mem_filter]
          exact ⟨ht'', hb⟩
        rw [hrest] at hmem
        simp at hmem
      intro hne
      exact hnb (beq_iff_eq.mpr hne.symm)
    · rw [if_neg hm] at h
      rw [foldRows_cons]
      have hrow : applyTableRow t' v = v := by
        unfold applyTableRow
        rw [if_neg]
        intro hne
        exact hm (beq_iff_eq.mpr hne.symm)
      rw [hrow]
      exact ih v h

theorem foldRows_filter (tbl : List VlanTableEntry) (v : Vlan)
    (pred : VlanTableEntry → Bool)
    (h : ∀ t ∈ tbl, pred t = false → v.name ≠ t.name) :
    foldRows (tbl.filter pred) v = foldRows tbl v := by
  induction tbl generalizing v with
  | nil => rfl
  | cons t tbl ih =>
    by_cases hp : pred t
    · rw [List.filter_cons_of_pos hp, foldRows_cons, foldRows_cons]
      exact ih (applyTableRow t v)
        (fun t' ht' hf => by rw [applyTableRow_name]; exact h t' (by simp [ht']) hf)
    · rw [List.filter_cons_of_neg hp, foldRows_cons]
      have hrow : applyTableRow t v = v := by
        unfold applyTableRow
        rw [if_neg (h t (by simp) (by simpa using hp))]
      rw [hrow]
      exact ih v (fun t' ht' hf => h t' (by simp [ht']) hf)

theorem create_vlan_db_obj_eq (ipd : Option String → IpDetails) (d : VlanDetails) :
    create_vlan_db_obj ipd d =
      d.vlan_list.map (fun e =>
        (foldRows d.vlan_table_list (mkVlanFromListEntry ipd e),
         membersFor d.vlan_member_list
           (foldRows d.vlan_table_list (mkVlanFromListEntry ipd e)))) := by
  rw [show create_vlan_db_obj ipd d =
        (applyTable d.vlan_table_list (d.vlan_list.map (mkVlanFromListEntry ipd))).map
          (fun v => (v, membersFor d.vlan_member_list v)) from rfl]
  rw [applyTable_eq_map, List.map_map, List.map_map]
  rfl

theorem mkVlanFromListEntry_name (ipd : Option String → IpDetails)
    (e : VlanListEntry) : (mkVlanFromListEntry ipd e).name = e.name := rfl

/-- C7: the mapper `_create_vlan_db_obj` produces exactly one entity per
`VLAN_LIST` entry (same names, same order); a `VLAN_TABLE_LIST` row whose
name matches no `VLAN_LIST` entry contributes nothing (dropping all such
rows leaves the result unchanged); an entry with no matching table row keeps
`mtu`, `admin_status` and `oper_status` absent; and when exactly one table
row matches an entry, the resulting entity carries that row's `mtu`,
`admin_status` and `oper_status`. -/
theorem c7_multi_table_join (ipd : Option String → IpDetails) (d : VlanDetails) :
    ((create_vlan_db_obj ipd d).map (fun p => p.1.name) =
      d.vlan_list.map (fun e => e.name))
    ∧ (create_vlan_db_obj ipd
        { d with vlan_table_list := (d.vlan_table_list.filter
            (fun t => d.vlan_list.any (fun e => e.name == t.name))) } =
       create_vlan_db_obj ipd d)
    ∧ (∀ e ∈ d.vlan_list, (∀ t ∈ d.vlan_table_list, e.name ≠ t.name) →
        ∃ p ∈ create_vlan_db_obj ipd d, p.1.name = e.name ∧
          p.1.mtu = none ∧ p.1.admin_status = none ∧ p.1.oper_status = none)
    ∧ (∀ e ∈ d.vlan_list, ∀ t,
        d.vlan_table_list.filter (fun t' => t'.name == e.name) = [t] →
        ∃ p ∈ create_vlan_db_obj ipd d, p.1.name = e.name ∧
          p.1.mtu = t.mtu ∧ p.1.admin_status = t.admin_status ∧
          p.1.oper_status = t.oper_status) := by
  refine ⟨?_, ?_, ?_, ?_⟩
  · rw [create_vlan_db_obj_eq, List.map_map]
    apply List.map_congr_left
    intro e _
    simp only [Function.comp]
    rw [foldRows_name, mkVlanFromListEntry_name]
  · rw [create_vlan_db_obj_eq, create_vlan_db_obj_eq]
    apply List.map_congr_left
    intro e he
    have hfr : foldRows (d.vlan_table_list.filter
        (fun t => d.vlan_list.any (fun e' => e'.name == t.name)))
        (mkVlanFromListEntry ipd e) =
        foldRows d.vlan_table_list (mkVlanFromListEntry ipd e) := by
      apply foldRows_filter
      intro t _ hf hne
      have : (e.name == t.name) = true := by
        rw [mkVlanFromListEntry_name] at hne
        exact beq_iff_eq.mpr hne
      have : d.vlan_list.any (fun e' => e'.name == t.name) = true :=
        List.any_eq_true.mpr ⟨e, he, this⟩
      rw [hf] at this
      simp at this
    rw [hfr]
  · intro e he hnone
    refine ⟨(foldRows d.vlan_table_list (mkVlanFromListEntry ipd e),
             membersFor d.vlan_member_list
               (foldRows d.vlan_table_list (mkVlanFromListEntry ipd e))), ?_, ?_⟩
    · rw [create_vlan_db_obj_eq]
      exact List.mem_map_of_mem _ he
    · have hfr : foldRows d.vlan_table_list (mkVlanFromListEntry ipd e) =
          mkVlanFromListEntry ipd e := by
        apply foldRows_no_match
        intro t ht
        rw [mkVlanFromListEntry_name]
        exact hnone t ht
      rw [hfr]
      exact ⟨rfl, rfl, rfl, rfl⟩
  · intro e he t hft
    refine ⟨(foldRows d.vlan_table_list (mkVlanFromListEntry ipd e),
             membersFor d.vlan_member_list
               (foldRows d.vlan_table_list (mkVlanFromListEntry ipd e))), ?_, ?_⟩
    · rw [create_vlan_db_obj_eq]
      exact List.mem_map_of_mem _ he
    · have hfr := foldRows_unique_match d.vlan_table_list
        (mkVlanFromListEntry ipd e) t (by rw [mkVlanFromListEntry_name]; exact hft)
      rw [hfr]
      exact ⟨rfl, rfl, rfl, rfl⟩

/-- Witness for C7 at the spec's own example: primary `[Vlan10]` joined with
secondary rows for `Vlan10` (mtu 9100, UP) and an unmatched `Vlan99` row. -/
theorem c7_multi_table_join_witness :
    (∃ p ∈ create_vlan_db_obj (fun _ => ⟨[], []⟩)
        ⟨[⟨some 10, some "Vlan10", none⟩],
         [⟨some "Vlan10", some 9100, some "UP", some "UP", none⟩,
          ⟨some "Vlan99", some 1500, some "DOWN", some "DOWN", none⟩],
         []⟩,
      p.1.name = some "Vlan10" ∧ p.1.mtu = some 9100 ∧
      p.1.admin_status = some "UP" ∧ p.1.oper_status = some "UP") := by
  have h := c7_multi_table_join (fun _ => ⟨[], []⟩)
    ⟨[⟨some 10, some "Vlan10", none⟩],
     [⟨some "Vlan10", some 9100, some "UP", some "UP", none⟩,
      ⟨some "Vlan99", some 1500, some "DOWN", some "DOWN", none⟩],
     []⟩
  exact h.2.2.2 ⟨some 10, some "Vlan10", none⟩ (by decide)
    ⟨some "Vlan10", some 9100, some "UP", some "UP", none⟩ (by decide)

/-- C9 counterexample: a `VLAN_LIST` entry omitting `autostate` paired with
a matching `VLAN_TABLE_LIST` row that also omits it — the join overwrites
the `"disable"` default with the row's absent value, so the final mapper
output carries no autostate. -/
theorem c9_autostate_default_counterexample :
    ((create_vlan_db_obj (fun _ => ⟨[], []⟩)
        ⟨[⟨some 10, some "Vlan10", none⟩],
         [⟨some "Vlan10", none, none, none, none⟩], []⟩).map
      (fun p => p.1.autostate) = [none])
    ∧ (none : Option String) ≠ some VlanAutoState_disable := by
  exact ⟨rfl, by decide⟩

/-- C9 (amended): an entry omitting `autostate` is mapped with the
`"disable"` default, and the default survives to the final mapper output
exactly when no `VLAN_TABLE_LIST` row matches the entry; a (unique) matching
row overwrites `autostate` with the row's own, possibly absent, value. -/
theorem c9_autostate_default_amended (ipd : Option String → IpDetails)
    (d : VlanDetails) :
    ∀ e ∈ d.vlan_list, e.autostate = none →
      ((mkVlanFromListEntry ipd e).autostate = some VlanAutoState_disable)
      ∧ ((∀ t ∈ d.vlan_table_list, e.name ≠ t.name) →
          ∃ p ∈ create_vlan_db_obj ipd d, p.1.name = e.name ∧
            p.1.autostate = some VlanAutoState_disable)
      ∧ (∀ t, d.vlan_table_list.filter (fun t' => t'.name == e.name) = [t] →
          ∃ p ∈ create_vlan_db_obj ipd d, p.1.name = e.name ∧
            p.1.autostate = t.autostate) := by
  intro e he h0
  refine ⟨?_, ?_, ?_⟩
  · unfold mkVlanFromListEntry
    rw [h0]
    rfl
  · intro hnone
    refine ⟨(foldRows d.vlan_table_list (mkVlanFromListEntry ipd e),
             membersFor d.vlan_member_list
               (foldRows d.vlan_table_list (mkVlanFromListEntry ipd e))), ?_, ?_⟩
    · rw [create_vlan_db_obj_eq]
      exact List.mem_map_of_mem _ he
    · have hfr : foldRows d.vlan_table_list (mkVlanFromListEntry ipd e) =
          mkVlanFromListEntry ipd e := by
        apply foldRows_no_match
        intro t ht
        rw [mkVlanFromListEntry_name]
        exact hnone t ht
      rw [hfr]
      refine ⟨rfl, ?_⟩
      unfold mkVlanFromListEntry
      rw [h0]
      rfl
  · intro t hft
    refine ⟨(foldRows d.vlan_table_list (mkVlanFromListEntry ipd e),
             membersFor d.vlan_member_list
               (foldRows d.vlan_table_list (mkVlanFromListEntry ipd e))), ?_, ?_⟩
    · rw [create_vlan_db_obj_eq]
      exact List.mem_map_of_mem _ he
    · have hfr := foldRows_unique_match d.vlan_table_list
        (mkVlanFromListEntry ipd e) t (by rw [mkVlanFromListEntry_name]; exact hft)
      rw [hfr]
      exact ⟨rfl, rfl⟩

/-- Witness for the amended C9: an entry without `autostate` and no table
row keeps the `"disable"` default; with the autostate-less matching row the
final value is absent. -/
theorem c9_autostate_default_amended_witness :
    ((mkVlanFromListEntry (fun _ => ⟨[], []⟩) ⟨some 10, some "Vlan10", none⟩).autostate
        = some VlanAutoState_disable)
    ∧ (∃ p ∈ create_vlan_db_obj (fun _ => ⟨[], []⟩)
          ⟨[⟨some 10, some "Vlan10", none⟩],
           [⟨some "Vlan10", none, none, none, none⟩], []⟩,
        p.1.name = some "Vlan10" ∧ p.1.autostate = none) := by
  have h := c9_autostate_default_amended (fun _ => ⟨[], []⟩)
    ⟨[⟨some 10, some "Vlan10", none⟩],
     [⟨some "Vlan10", none, none, none, none⟩], []⟩
    ⟨some 10, some "Vlan10", none⟩ (by decide) rfl
  exact ⟨h.1, h.2.2 ⟨some "Vlan10", none, none, none, none⟩ (by decide)⟩

theorem digitChar_isDigit (k : Nat) : (digitChar k).isDigit = true := by
  unfold digitChar
  split <;> decide

theorem digitChar_val (k : Nat) (h : k < 10) : (digitChar k).toNat - 48 = k := by
  interval_cases k <;> decide

theorem isDigit_ne_E {c : Char} (h : c.isDigit = true) : c ≠ 'E' := by
  intro he
  rw [he] at h
  exact absurd h (by decide)

theorem natDigits_ne_nil (n : Nat) : natDigits n ≠ [] := by
  rw [natDigits]
  split
  · simp
  · simp

theorem natDigits_isDigit (n : Nat) : ∀ c ∈ natDigits n, c.isDigit = true := by
  induction n using Nat.strong_induction_on with
  | _ n ih =>
    rw [natDigits]
    split
    · intro c hc
      rw [List.mem_singleton] at hc
      rw [hc]
      exact digitChar_isDigit n
    · intro c hc
      rw [List.mem_append] at hc
      rcases hc with hc | hc
      · exact ih (n / 10) (Nat.div_lt_self (by omega) (by omega)) c hc
      · rw [List.mem_singleton] at hc
        rw [hc]
        exact digitChar_isDigit (n % 10)

theorem parseDigitsAcc_append (acc : Nat) (l1 l2 : List Char) :
    parseDigitsAcc acc (l1 ++ l2) = parseDigitsAcc (parseDigitsAcc acc l1) l2 := by
  induction l1 generalizing acc with
  | nil => rfl
  | cons c l1 ih => exact ih (acc * 10 + (c.toNat - 48))

theorem natDigits_lt (n : Nat) (h : n < 10) : natDigits n = [digitChar n] := by
  rw [natDigits]
  split
  · rfl
  · rename_i hn
    exact absurd h hn

theorem natDigits_ge (n : Nat) (h : ¬ n < 10) :
    natDigits n = natDigits (n / 10) ++ [digitChar (n % 10)] := by
  rw [natDigits]
  split
  · rename_i hn
    exact absurd hn h
  · rfl

theorem parse_snoc (acc : Nat) (l : List Char) (c : Char) :
    parseDigitsAcc acc (l ++ [c]) = (parseDigitsAcc acc l) * 10 + (c.toNat - 48) := by
  rw [parseDigitsAcc_append]
  rfl

theorem parse_natDigits (n : Nat) : parseDigitsAcc 0 (natDigits n) = n := by
  induction n using Nat.strong_induction_on with
  | _ n ih =>
    by_cases h : n < 10
    · rw [natDigits_lt n h]
      show 0 * 10 + ((digitChar n).toNat - 48) = n
      rw [digitChar_val n h]
      omega
    · rw [natDigits_ge n h, parse_snoc, ih (n / 10) (Nat.div_lt_self (by omega) (by omega))]
      rw [digitChar_val (n % 10) (Nat.mod_lt n (by omega))]
      omega

theorem pyReplace_no_occur (o : Char) (os new l : List Char)
    (h : ∀ c ∈ l, c ≠ o) : pyReplace (o :: os) new l = l := by
  induction l with
  | nil => rw [pyReplace]
  | cons c rest ih =>
    rw [pyReplace]
    rw [dif_neg]
    · rw [ih (fun c' hc' => h c' (by simp [hc']))]
    · intro hcond
      have hpre := hcond.1
      have hoc : (o == c) = true := by
        have hun : (o :: os).isPrefixOf (c :: rest) = ((o == c) && os.isPrefixOf rest) := rfl
        rw [hun] at hpre
        exact (Bool.and_eq_true _ _ ▸ hpre).1
      exact h c (by simp) (eq_of_beq hoc).symm

theorem pyReplace_prefix_step (o : Char) (os new l : List Char) :
    pyReplace (o :: os) new ((o :: os) ++ l) = new ++ pyReplace (o :: os) new l := by
  rw [show (o :: os) ++ l = o :: (os ++ l) from rfl, pyReplace]
  rw [dif_pos]
  · rw [show (o :: (os ++ l)).drop (o :: os).length = ((o :: os) ++ l).drop (o :: os).length from rfl]
    rw [List.drop_left]
  · constructor
    · exact List.isPrefixOf_iff_prefix.mpr ⟨l, rfl⟩
    · simp

theorem strToEthNum_roundtrip (a : Nat) :
    strToEthNum (some (String.mk ("Ethernet".data ++ natDigits a))) = .ok a := by
  show pyIntChars (pyReplace "Ethernet".data [] ("Ethernet".data ++ natDigits a)) = .ok a
  have heth : "Ethernet".data = 'E' :: "thernet".data := rfl
  rw [heth]
  rw [pyReplace_prefix_step]
  rw [pyReplace_no_occur _ _ _ _ (fun c hc => isDigit_ne_E (natDigits_isDigit a c hc))]
  rw [List.nil_append]
  unfold pyIntChars
  rw [if_pos ⟨natDigits_ne_nil a, List.all_eq_true.mpr (natDigits_isDigit a)⟩]
  rw [parse_natDigits]

/-- C6: for a port-group state whose member-if-start and member-if-end are
`"Ethernet" ++ a` and `"Ethernet" ++ b` (canonical decimal integers) with
`a ≤ b`, and whose speed fields are readable, the mapper produces the entity
together with exactly the inclusive ascending member sequence
`["Ethernet a", …, "Ethernet b"]`. -/
theorem c6_range_expansion (r : PortGroupStateRaw) (rest : List PortGroupStateRaw)
    (out : List (PortGroup × List String)) (a b : Nat) (ds sp : String)
    (vsp : List String)
    (hs : r.member_if_start = some (String.mk ("Ethernet".data ++ natDigits a)))
    (he : r.member_if_end = some (String.mk ("Ethernet".data ++ natDigits b)))
    (hab : a ≤ b)
    (hds : getSpeedStrFromOCStrE r.default_speed = .ok ds)
    (hvs : ocSpeedListFrom r.valid_speeds = .ok vsp)
    (hsp : getSpeedStrFromOCStrE r.speed = .ok sp)
    (hrest : create_port_group_graph_objects rest = .ok out) :
    create_port_group_graph_objects (r :: rest) =
      .ok (({ port_group_id := r.pg_id, speed := sp, valid_speeds := vsp,
              default_speed := ds },
            (List.range' a (b - a + 1)).map
              (fun n => String.mk ("Ethernet".data ++ natDigits n))) :: out) := by
  rw [show create_port_group_graph_objects (r :: rest) = (do
      let ds ← getSpeedStrFromOCStrE r.default_speed
      let vs ← ocSpeedListFrom r.valid_speeds
      let sp ← getSpeedStrFromOCStrE r.speed
      let a ← strToEthNum r.member_if_start
      let b ← strToEthNum r.member_if_end
      let tail ← create_port_group_graph_objects rest
      Except.ok (({ port_group_id := r.pg_id, speed := sp, valid_speeds := vs,
                    default_speed := ds }, expandEthernet a b) :: tail)) from rfl]
  rw [hds, hvs, hsp, hs, he, strToEthNum_roundtrip, strToEthNum_roundtrip, hrest]
  show Except.ok (_ :: out) = _
  unfold expandEthernet
  rw [show b + 1 - a = b - a + 1 from by omega]

/-- Witness for C6 at the spec's example: start `"Ethernet0"`, end
`"Ethernet3"` expand to exactly
`["Ethernet0", "Ethernet1", "Ethernet2", "Ethernet3"]`. -/
theorem c6_range_expansion_witness :
    create_port_group_graph_objects
      [{ pg_id := some "1", speed := some "openconfig-if-ethernet:SPEED_10GB",
         default_speed := some "openconfig-if-ethernet:SPEED_25GB",
         valid_speeds := some ["openconfig-if-ethernet:SPEED_10GB"],
         member_if_start := some "Ethernet0", member_if_end := some "Ethernet3" }] =
      .ok [({ port_group_id := some "1", speed := "SPEED_10GB",
              valid_speeds := ["SPEED_10GB"], default_speed := "SPEED_25GB" },
            ["Ethernet0", "Ethernet1", "Ethernet2", "Ethernet3"])] := by
  have e0 : natDigits 0 = ['0'] := by rw [natDigits_lt 0 (by omega)]; rfl
  have e1 : natDigits 1 = ['1'] := by rw [natDigits_lt 1 (by omega)]; rfl
  have e2 : natDigits 2 = ['2'] := by rw [natDigits_lt 2 (by omega)]; rfl
  have e3 : natDigits 3 = ['3'] := by rw [natDigits_lt 3 (by omega)]; rfl
  have h := c6_range_expansion
    { pg_id := some "1", speed := some "openconfig-if-ethernet:SPEED_10GB",
      default_speed := some "openconfig-if-ethernet:SPEED_25GB",
      valid_speeds := some ["openconfig-if-ethernet:SPEED_10GB"],
      member_if_start := some "Ethernet0", member_if_end := some "Ethernet3" }
    [] [] 0 3 "SPEED_25GB" "SPEED_10GB" ["SPEED_10GB"]
    (by rw [e0]; rfl) (by rw [e3]; rfl) (by omega) (by rfl) (by rfl) (by rfl) (by rfl)
  rw [h]
  rw [show List.range' 0 (3 - 0 + 1) = [0, 1, 2, 3] from rfl]
  simp only [List.map]
  rw [e0, e1, e2, e3]
  rfl

/-- C2: the membership-skip claim fails on the code.  One snapshot entry
carries an unresolvable member (`Ethernet99`) followed by a resolvable one
(`Ethernet0`, present among the device's interfaces): `insert_vlan_in_db`
raises `AttributeError` (the source assigns `mem_rel.tagging_mode` even when
`mem_rel` is `None`) and the later resolvable membership is never created —
the spec's silent-skip intent, written into the conditional `else None`, is
defeated by the unconditional attribute assignment. -/
theorem c2_membership_skip_bug :
    insert_vlan_in_db ⟨[], [], ["Ethernet0"], []⟩
      [(⟨some 10, some "Vlan10", none, none, none, some "disable", none, none⟩,
        [⟨some "Vlan10", some "Ethernet99", some "tagged"⟩,
         ⟨some "Vlan10", some "Ethernet0", some "tagged"⟩])] =
    (⟨[⟨some 10, some "Vlan10", none, none, none, some "disable", none, none⟩],
      [], ["Ethernet0"], []⟩,
     some "AttributeError: NoneType has no attribute tagging_mode") := by
  rfl

/-- C3: the no-mutation-on-fetch-failure claim is violated by
`discover_stp_port`: a transport failure is swallowed by
`_create_stp_port_graph_object` (which returns `{}`), and reconciling the
empty snapshot prunes the device's existing `STP_PORT` entity, with no error
reported. -/
theorem c3_stp_fetch_failure_prunes :
    discover_stp_port (fun _ => .error "TransportError")
      ⟨[("10.0.0.1", ⟨[], [], [],
          [⟨some "Ethernet0", none, none, none, none, none, none, none, none,
            none, none, none⟩]⟩)]⟩
      (some "10.0.0.1") =
    (⟨[("10.0.0.1", ⟨[], [], [], []⟩)]⟩, none) := by
  rfl

/-- C4 counterexample: `delete_stp_port_member` performs no discovery at all
— its trace holds only the device call, and the device-call failure is
re-raised without any resynchronization attempt. -/
theorem c4_dispatcher_counterexample :
    hasDiscovery (delete_stp_port_member_trace (some "DeviceError")) = false
    ∧ (delete_stp_port_member_trace (some "DeviceError")).err = some "DeviceError" := by
  exact ⟨rfl, rfl⟩

/-- C4 (amended): `del_vlan`, `config_vlan`, `add_vlan_mem`, `del_vlan_mem`
and `set_port_group_speed` each invoke discovery for the affected resource
kind after the device call regardless of its outcome, re-raising a failure
only after the resynchronization runs; `delete_stp_port_member`, however,
invokes no discovery and re-raises immediately. -/
theorem c4_dispatcher_amended (res : Option String) :
    ((del_vlan_trace res).evs =
        [.deviceCall "del_vlan_from_device", .discovery "vlan"]
      ∧ (del_vlan_trace res).err = res)
    ∧ ((config_vlan_trace res).evs =
        [.deviceCall "config_vlan_on_device", .discovery "vlan"]
      ∧ (config_vlan_trace res).err = res)
    ∧ ((add_vlan_mem_trace res).evs =
        [.deviceCall "add_vlan_mem_interface_on_device", .discovery "vlan"]
      ∧ (add_vlan_mem_trace res).err = res)
    ∧ ((del_vlan_mem_trace res).evs =
        [.deviceCall "del_vlan_mem_interface_on_device", .discovery "vlan"]
      ∧ (del_vlan_mem_trace res).err = res)
    ∧ ((set_port_group_speed_trace res).evs =
        [.deviceCall "set_port_group_speed_on_device", .discovery "port_group"]
      ∧ (set_port_group_speed_trace res).err = res)
    ∧ ((delete_stp_port_member_trace res).evs =
        [.deviceCall "delete_stp_port_member_from_device"]
      ∧ (delete_stp_port_member_trace res).err = res
      ∧ hasDiscovery (delete_stp_port_member_trace res) = false) := by
  exact ⟨⟨rfl, rfl⟩, ⟨rfl, rfl⟩, ⟨rfl, rfl⟩, ⟨rfl, rfl⟩, ⟨rfl, rfl⟩, rfl, rfl, rfl⟩

/-- C5 counterexample: two registered devices `A` and `B`; the fetch fails
on `A` and would succeed on `B` (whose store state it would change, as the
single-device discovery of `B` shows) — yet the bulk discovery re-raises the
`A` failure and leaves `B` exactly as it was: the remaining devices are not
discovered. -/
theorem c5_bulk_discovery_counterexample :
    (discover_vlan
        (fun ip => if ip = "A" then Except.error "TransportError"
                   else Except.ok ⟨[⟨some 20, some "Vlan20", none⟩], [], []⟩)
        (fun _ _ => ⟨[], []⟩)
        ⟨[("A", ⟨[], [], [], []⟩), ("B", ⟨[], [], [], []⟩)]⟩ none =
      (⟨[("A", ⟨[], [], [], []⟩), ("B", ⟨[], [], [], []⟩)]⟩, some "TransportError"))
    ∧ (discover_vlan
        (fun ip => if ip = "A" then Except.error "TransportError"
                   else Except.ok ⟨[⟨some 20, some "Vlan20", none⟩], [], []⟩)
        (fun _ _ => ⟨[], []⟩)
        ⟨[("A", ⟨[], [], [], []⟩), ("B", ⟨[], [], [], []⟩)]⟩ (some "B") =
      (⟨[("A", ⟨[], [], [], []⟩),
         ("B", ⟨[⟨some 20, some "Vlan20", none, none, none, some "disable",
                  none, none⟩], [], [], []⟩)]⟩, none)) := by
  exact ⟨rfl, rfl⟩

/-- C5 (amended): when fetching from the first device of a bulk-discovery
worklist fails, the error is re-raised (after logging) and the loop aborts:
the store is returned unchanged and the remaining devices — whatever they
are — are never visited. -/
theorem c5_bulk_discovery_amended (fetch : String → Except String VlanDetails)
    (ipd : String → Option String → IpDetails) (db : DB) (ip : String)
    (rest : List String) (d : DevState) (e : String)
    (hd : get_device_db_obj db ip = some d)
    (hf : fetch ip = .error e) :
    discoverVlanLoop fetch ipd db (ip :: rest) = (db, some e) := by
  rw [discoverVlanLoop, hd, hf]

/-- Witness for the amended C5 at the two-device store. -/
theorem c5_bulk_discovery_amended_witness :
    discoverVlanLoop (fun ip => if ip = "A" then Except.error "TransportError"
        else Except.ok ⟨[⟨some 20, some "Vlan20", none⟩], [], []⟩)
      (fun _ _ => ⟨[], []⟩)
      ⟨[("A", ⟨[], [], [], []⟩), ("B", ⟨[], [], [], []⟩)]⟩ ["A", "B"] =
    (⟨[("A", ⟨[], [], [], []⟩), ("B", ⟨[], [], [], []⟩)]⟩, some "TransportError") := by
  exact c5_bulk_discovery_amended _ _ _ "A" ["B"] ⟨[], [], [], []⟩ "TransportError" rfl rfl

/-- C10 counterexample: for an unregistered device IP, `get_vlan` does not
return `None` — `get_vlan_obj_from_db` dereferences the absent device
(`device.vlans` on `None`) and the `AttributeError` propagates. -/
theorem c10_get_vlan_counterexample :
    get_vlan ⟨[]⟩ "10.0.0.1" (some "Vlan10") =
      .error "AttributeError: NoneType has no attribute vlans"
    ∧ ∀ r : GetVlanResult,
        (Except.error "AttributeError: NoneType has no attribute vlans" :
          Except String GetVlanResult) ≠ .ok r := by
  exact ⟨rfl, fun r h => by cases h⟩

/-- C10 (amended): an unregistered device makes `get_vlan` raise
`AttributeError` (it is not guarded); for a registered device, a named VLAN
absent from the store yields `None` without error, a present one yields its
single entity JSON, and an omitted name yields the list of entity JSONs. -/
theorem c10_get_vlan_amended (db : DB) (ip : String) :
    (∀ nm, get_device_db_obj db ip = none →
      get_vlan db ip nm = .error "AttributeError: NoneType has no attribute vlans")
    ∧ (∀ d nm, get_device_db_obj db ip = some d → nm ≠ "" →
        (d.vlans.find? (fun v => v.name == some nm) = none →
          get_vlan db ip (some nm) = .ok .nothing)
        ∧ (∀ v, d.vlans.find? (fun v => v.name == some nm) = some v →
            get_vlan db ip (some nm) = .ok (.one (getJson d v))))
    ∧ (∀ d, get_device_db_obj db ip = some d →
        get_vlan db ip none = .ok (.many (d.vlans.map (getJson d)))) := by
  refine ⟨?_, ?_, ?_⟩
  · intro nm hd
    rw [get_vlan, hd]
  · intro d nm hd hne
    constructor
    · intro hfind
      simp only [get_vlan, hd]
      rw [devVlanQuery, if_neg hne, hfind]
    · intro v hfind
      simp only [get_vlan, hd]
      rw [devVlanQuery, if_neg hne, hfind]
  · intro d hd
    rw [get_vlan, hd]
    rfl

/-- Witness for the amended C10: a store with one device holding `Vlan10`
and a tagged `Ethernet0` membership — the named read returns the single
JSON, the read of a missing name returns `None`. -/
theorem c10_get_vlan_amended_witness :
    get_vlan ⟨[("A", ⟨[⟨some 10, some "Vlan10", none, none, none, some "disable",
        none, none⟩], [⟨some "Vlan10", "Ethernet0", some "tagged"⟩],
        ["Ethernet0"], []⟩)]⟩ "A" (some "Vlan10") =
      .ok (.one ⟨⟨some 10, some "Vlan10", none, none, none, some "disable",
        none, none⟩, ["Ethernet0"]⟩)
    ∧ get_vlan ⟨[("A", ⟨[⟨some 10, some "Vlan10", none, none, none, some "disable",
        none, none⟩], [⟨some "Vlan10", "Ethernet0", some "tagged"⟩],
        ["Ethernet0"], []⟩)]⟩ "A" (some "Vlan99") = .ok .nothing := by
  constructor
  · exact ((c10_get_vlan_amended ⟨[("A", ⟨[⟨some 10, some "Vlan10", none, none,
      none, some "disable", none, none⟩], [⟨some "Vlan10", "Ethernet0",
      some "tagged"⟩], ["Ethernet0"], []⟩)]⟩ "A").2.1
      ⟨[⟨some 10, some "Vlan10", none, none, none, some "disable", none, none⟩],
       [⟨some "Vlan10", "Ethernet0", some "tagged"⟩], ["Ethernet0"], []⟩
      "Vlan10" rfl (by decide)).2
      ⟨some 10, some "Vlan10", none, none, none, some "disable", none, none⟩ rfl
  · exact ((c10_get_vlan_amended ⟨[("A", ⟨[⟨some 10, some "Vlan10", none, none,
      none, some "disable", none, none⟩], [⟨some "Vlan10", "Ethernet0",
      some "tagged"⟩], ["Ethernet0"], []⟩)]⟩ "A").2.1
      ⟨[⟨some 10, some "Vlan10", none, none, none, some "disable", none, none⟩],
       [⟨some "Vlan10", "Ethernet0", some "tagged"⟩], ["Ethernet0"], []⟩
      "Vlan99" rfl (by decide)).1 rfl

theorem connectMember_vlans (d : DevState) (vn : Option String) (ifn : String)
    (tm : Option String) : (connectMember d vn ifn tm).vlans = d.vlans := by
  unfold connectMember
  split <;> rfl

theorem connectMember_interfaces (d : DevState) (vn : Option String) (ifn : String)
    (tm : Option String) : (connectMember d vn ifn tm).interfaces = d.interfaces := by
  unfold connectMember
  split <;> rfl

theorem connectMember_stp (d : DevState) (vn : Option String) (ifn : String)
    (tm : Option String) : (connectMember d vn ifn tm).stp_ports = d.stp_ports := by
  unfold connectMember
  split <;> rfl

theorem memberLoop_vlans (ms : List VlanMemberEntry) (d : DevState) (sv : Option Vlan) :
    ((memberLoop d sv ms).1).vlans = d.vlans := by
  induction ms generalizing d with
  | nil => rfl
  | cons m rest ih =>
    cases sv with
    | none => rfl
    | some v =>
      cases hi : getInterfaceOfDeviceFromDB d m.ifname with
      | none => simp only [memberLoop, hi]
      | some ifn =>
        simp only [memberLoop, hi]
        rw [ih, connectMember_vlans]

theorem memberLoop_interfaces (ms : List VlanMemberEntry) (d : DevState) (sv : Option Vlan) :
    ((memberLoop d sv ms).1).interfaces = d.interfaces := by
  induction ms generalizing d with
  | nil => rfl
  | cons m rest ih =>
    cases sv with
    | none => rfl
    | some v =>
      cases hi : getInterfaceOfDeviceFromDB d m.ifname with
      | none => simp only [memberLoop, hi]
      | some ifn =>
        simp only [memberLoop, hi]
        rw [ih, connectMember_interfaces]

theorem memberLoop_stp (ms : List VlanMemberEntry) (d : DevState) (sv : Option Vlan) :
    ((memberLoop d sv ms).1).stp_ports = d.stp_ports := by
  induction ms generalizing d with
  | nil => rfl
  | cons m rest ih =>
    cases sv with
    | none => rfl
    | some v =>
      cases hi : getInterfaceOfDeviceFromDB d m.ifname with
      | none => simp only [memberLoop, hi]
      | some ifn =>
        simp only [memberLoop, hi]
        rw [ih, connectMember_stp]

theorem getInterface_of_contains (d : DevState) (i : String)
    (h : d.interfaces.contains i = true) :
    getInterfaceOfDeviceFromDB d (some i) = some i := by
  show (if d.interfaces.contains i = true then some i else none) = some i
  rw [if_pos h]

theorem memberLoop_ok (ms : List VlanMemberEntry) (d : DevState) (v : Vlan)
    (hres : ∀ m ∈ ms, ∃ i, m.ifname = some i ∧ d.interfaces.contains i = true) :
    (memberLoop d (some v) ms).2 = none := by
  induction ms generalizing d with
  | nil => rfl
  | cons m rest ih =>
    obtain ⟨i, hmi, hci⟩ := hres m (by simp)
    simp only [memberLoop, hmi, getInterface_of_contains d i hci]
    apply ih
    intro m' hm'
    rw [connectMember_interfaces]
    exact hres m' (by simp [hm'])

theorem replaceFirst_map_name (P : Vlan → Bool) (f : Vlan → Vlan) (l : List Vlan)
    (hf : ∀ w, P w = true → (f w).name = w.name) :
    (replaceFirst P f l).map (fun v => v.name) = l.map (fun v => v.name) := by
  induction l with
  | nil => rfl
  | cons v rest ih =>
    rw [replaceFirst]
    by_cases hp : P v
    · rw [if_pos hp]
      simp only [List.map_cons]
      rw [hf v hp]
    · rw [if_neg hp]
      simp only [List.map_cons]
      rw [ih]

theorem mem_replaceFirst_of_not (P : Vlan → Bool) (f : Vlan → Vlan) (l : List Vlan)
    (v : Vlan) (hv : v ∈ l) (hPv : ¬ P v = true) : v ∈ replaceFirst P f l := by
  induction l with
  | nil => simp at hv
  | cons w rest ih =>
    rw [replaceFirst]
    by_cases hp : P w
    · rw [if_pos hp]
      rcases List.mem_cons.mp hv with hv | hv
      · exact absurd (hv ▸ hp) hPv
      · exact List.mem_cons_of_mem _ hv
    · rw [if_neg hp]
      rcases List.mem_cons.mp hv with hv | hv
      · rw [hv]
        exact List.mem_cons_self _ _
      · exact List.mem_cons_of_mem _ (ih hv)

theorem find?_replaceFirst_same (P : Vlan → Bool) (f : Vlan → Vlan) (l : List Vlan)
    (w : Vlan) (h : l.find? P = some w) (hfw : P (f w) = true) :
    (replaceFirst P f l).find? P = some (f w) := by
  induction l with
  | nil => simp at h
  | cons v rest ih =>
    rw [replaceFirst]
    by_cases hp : P v
    · rw [if_pos hp]
      rw [List.find?_cons_of_pos _ hp] at h
      cases h
      exact List.find?_cons_of_pos _ hfw
    · rw [if_neg hp]
      rw [List.find?_cons_of_neg _ hp] at h
      rw [List.find?_cons_of_neg _ hp]
      exact ih h

theorem find?_replaceFirst_other (P Q : Vlan → Bool) (f : Vlan → Vlan) (l : List Vlan)
    (h : ∀ w ∈ l, P w = true → (Q w = false ∧ Q (f w) = false)) :
    (replaceFirst P f l).find? Q = l.find? Q := by
  induction l with
  | nil => rfl
  | cons v rest ih =>
    rw [replaceFirst]
    by_cases hp : P v
    · rw [if_pos hp]
      obtain ⟨hqv, hqfv⟩ := h v (by simp) hp
      rw [List.find?_cons_of_neg _ (by simp [hqfv]), List.find?_cons_of_neg _ (by simp [hqv])]
    · rw [if_neg hp]
      by_cases hq : Q v
      · rw [List.find?_cons_of_pos _ hq, List.find?_cons_of_pos _ hq]
      · rw [List.find?_cons_of_neg _ hq, List.find?_cons_of_neg _ hq]
        exact ih (fun w hw => h w (by simp [hw]))

theorem replaceFirst_eq_self (P : Vlan → Bool) (f : Vlan → Vlan) (l : List Vlan)
    (h : ∀ w ∈ l, P w = true → f w = w) : replaceFirst P f l = l := by
  induction l with
  | nil => rfl
  | cons v rest ih =>
    rw [replaceFirst]
    by_cases hp : P v
    · rw [if_pos hp, h v (by simp) hp]
    · rw [if_neg hp, ih (fun w hw => h w (by simp [hw]))]

theorem removeFirst_eq_filter (P : Vlan → Bool) (l : List Vlan)
    (h : (l.map (fun v => v.name)).Nodup)
    (hP : ∀ v w, P v = true → P w = true → v.name = w.name) :
    removeFirst P l = l.filter (fun v => ! P v) := by
  induction l with
  | nil => rfl
  | cons v rest ih =>
    rw [removeFirst]
    simp only [List.map_cons, List.nodup_cons] at h
    by_cases hp : P v
    · rw [if_pos hp, List.filter_cons]
      rw [if_neg (by simp [hp])]
      have hrest : ∀ w ∈ rest, ¬ P w = true := by
        intro w hw hPw
        exact h.1 (by
          rw [hP v w hp hPw]
          exact List.mem_map_of_mem _ hw)
      exact (List.filter_eq_self.mpr (fun w hw => by simp [hrest w hw])).symm
    · rw [if_neg hp, List.filter_cons, if_pos (by simp [hp])]
      rw [ih h.2]

theorem del_vlan_vlans (d : DevState) (nm : Option String)
    (h : (d.vlans.map (fun v => v.name)).Nodup) :
    (del_vlan_from_dev d nm).vlans = d.vlans.filter (fun w => ! (w.name == nm)) := by
  cases hf : d.vlans.find? (fun v => v.name == nm) with
  | none =>
    simp only [del_vlan_from_dev, hf]
    exact (List.filter_eq_self.mpr (fun w hw => by
      simp [List.find?_eq_none.mp hf w hw])).symm
  | some v =>
    simp only [del_vlan_from_dev, hf]
    exact removeFirst_eq_filter _ _ h
      (fun a b ha hb => by rw [eq_of_beq ha, eq_of_beq hb])

theorem del_vlan_interfaces (d : DevState) (nm : Option String) :
    (del_vlan_from_dev d nm).interfaces = d.interfaces := by
  unfold del_vlan_from_dev
  split <;> rfl

theorem del_vlan_stp (d : DevState) (nm : Option String) :
    (del_vlan_from_dev d nm).stp_ports = d.stp_ports := by
  unfold del_vlan_from_dev
  split <;> rfl

theorem del_vlan_rels_subset (d : DevState) (nm : Option String) (rl : MemRel)
    (h : rl ∈ (del_vlan_from_dev d nm).memberRels) : rl ∈ d.memberRels := by
  unfold del_vlan_from_dev at h
  split at h
  · exact h
  · exact List.mem_of_mem_filter h

theorem del_vlan_rels_keep (d : DevState) (nm : Option String) (rl : MemRel)
    (h : rl ∈ d.memberRels) (hne : rl.vlanName ≠ nm) :
    rl ∈ (del_vlan_from_dev d nm).memberRels := by
  unfold del_vlan_from_dev
  split
  · exact h
  · refine List.mem_filter.mpr ⟨h, ?_⟩
    simp only [decide_eq_true_eq]
    intro hb
    exact hne (eq_of_beq hb)

theorem del_vlan_names_nodup (d : DevState) (nm : Option String)
    (h : (d.vlans.map (fun v => v.name)).Nodup) :
    ((del_vlan_from_dev d nm).vlans.map (fun v => v.name)).Nodup := by
  rw [del_vlan_vlans d nm h]
  exact List.Nodup.sublist (List.Sublist.map _ (List.filter_sublist _)) h

theorem pruneFold_interfaces (snap : List (Vlan × List VlanMemberEntry)) :
    ∀ (cur : List Vlan) (acc : DevState),
    (cur.foldl (fun acc v => if (snapNames snap).contains v.name then acc
        else del_vlan_from_dev acc v.name) acc).interfaces = acc.interfaces := by
  intro cur
  induction cur with
  | nil => intro acc; rfl
  | cons v cur ih =>
    intro acc
    rw [List.foldl_cons]
    by_cases hc : (snapNames snap).contains v.name
    · rw [if_pos hc]
      exact ih acc
    · rw [if_neg hc]
      rw [ih (del_vlan_from_dev acc v.name)]
      exact del_vlan_interfaces acc v.name

theorem pruneFold_stp (snap : List (Vlan × List VlanMemberEntry)) :
    ∀ (cur : List Vlan) (acc : DevState),
    (cur.foldl (fun acc v => if (snapNames snap).contains v.name then acc
        else del_vlan_from_dev acc v.name) acc).stp_ports = acc.stp_ports := by
  intro cur
  induction cur with
  | nil => intro acc; rfl
  | cons v cur ih =>
    intro acc
    rw [List.foldl_cons]
    by_cases hc : (snapNames snap).contains v.name
    · rw [if_pos hc]
      exact ih acc
    · rw [if_neg hc]
      rw [ih (del_vlan_from_dev acc v.name)]
      exact del_vlan_stp acc v.name

theorem pruneFold_rels_keep (snap : List (Vlan × List VlanMemberEntry)) :
    ∀ (cur : List Vlan) (acc : DevState) (rl : MemRel),
    rl ∈ acc.memberRels → (snapNames snap).contains rl.vlanName = true →
    rl ∈ (cur.foldl (fun acc v => if (snapNames snap).contains v.name then acc
        else del_vlan_from_dev acc v.name) acc).memberRels := by
  intro cur
  induction cur with
  | nil => intro acc rl h _; exact h
  | cons v cur ih =>
    intro acc rl h hcon
    rw [List.foldl_cons]
    by_cases hc : (snapNames snap).contains v.name
    · rw [if_pos hc]
      exact ih acc rl h hcon
    · rw [if_neg hc]
      refine ih _ rl ?_ hcon
      refine del_vlan_rels_keep acc v.name rl h ?_
      intro he
      rw [he] at hcon
      exact absurd hcon hc

theorem pruneFold_rels_subset (snap : List (Vlan × List VlanMemberEntry)) :
    ∀ (cur : List Vlan) (acc : DevState) (rl : MemRel),
    rl ∈ (cur.foldl (fun acc v => if (snapNames snap).contains v.name then acc
        else del_vlan_from_dev acc v.name) acc).memberRels → rl ∈ acc.memberRels := by
  intro cur
  induction cur with
  | nil => intro acc rl h; exact h
  | cons v cur ih =>
    intro acc rl h
    rw [List.foldl_cons] at h
    by_cases hc : (snapNames snap).contains v.name
    · rw [if_pos hc] at h
      exact ih acc rl h
    · rw [if_neg hc] at h
      exact del_vlan_rels_subset acc v.name rl (ih _ rl h)

theorem pruneFold_vlans (snap : List (Vlan × List VlanMemberEntry)) :
    ∀ (cur : List Vlan) (acc : DevState),
    ((acc.vlans.map (fun v => v.name)).Nodup) →
    (cur.foldl (fun acc v => if (snapNames snap).contains v.name then acc
        else del_vlan_from_dev acc v.name) acc).vlans =
      acc.vlans.filter (fun w =>
        ! ((cur.map (fun v => v.name)).filter
            (fun x => ! (snapNames snap).contains x)).contains w.name) := by
  intro cur
  induction cur with
  | nil =>
    intro acc _
    exact (List.filter_eq_self.mpr (fun w _ => by simp)).symm
  | cons v cur ih =>
    intro acc hnd
    rw [List.foldl_cons]
    by_cases hc : (snapNames snap).contains v.name
    · rw [if_pos hc]
      rw [ih acc hnd]
      apply List.filter_congr
      intro w _
      simp only [List.map_cons, List.filter_cons]
      rw [if_neg (by simpa using hc)]
    · rw [if_neg hc]
      rw [ih (del_vlan_from_dev acc v.name) (del_vlan_names_nodup acc v.name hnd)]
      rw [del_vlan_vlans acc v.name hnd]
      rw [List.filter_filter]
      apply List.filter_congr
      intro w _
      simp only [List.map_cons, List.filter_cons]
      rw [if_pos (by simpa using hc)]
      rw [List.contains_cons]
      cases hb : (w.name == v.name) <;> simp [hb]

theorem pruneStale_vlans (d : DevState) (snap : List (Vlan × List VlanMemberEntry))
    (hnd : (d.vlans.map (fun v => v.name)).Nodup) :
    (pruneStale d snap).vlans =
      d.vlans.filter (fun w => (snapNames snap).contains w.name) := by
  unfold pruneStale
  rw [pruneFold_vlans snap d.vlans d hnd]
  apply List.filter_congr
  intro w hw
  have hmem : w.name ∈ d.vlans.map (fun v => v.name) := List.mem_map_of_mem _ hw
  by_cases hsc : (snapNames snap).contains w.name = true
  · rw [hsc]
    have hcf : ((d.vlans.map (fun v => v.name)).filter
        (fun x => !(snapNames snap).contains x)).contains w.name = false := by
      by_contra hcc
      have hcc' : ((d.vlans.map (fun v => v.name)).filter
          (fun x => !(snapNames snap).contains x)).contains w.name = true := by
        revert hcc
        cases ((d.vlans.map (fun v => v.name)).filter
          (fun x => !(snapNames snap).contains x)).contains w.name <;> simp
      obtain ⟨x, hx, hbeq⟩ := List.contains_iff_exists_mem_beq.mp hcc'
      obtain ⟨formal, hpred⟩ := List.mem_filter.mp hx
      have hwx : w.name = x := eq_of_beq hbeq
      rw [← hwx] at hpred
      rw [hsc] at hpred
      exact absurd hpred (by decide)
    rw [hcf]
    rfl
  · have hf : (snapNames snap).contains w.name = false := by
      revert hsc
      cases (snapNames snap).contains w.name <;> simp
    rw [hf]
    have hct : ((d.vlans.map (fun v => v.name)).filter
        (fun x => !(snapNames snap).contains x)).contains w.name = true := by
      refine List.contains_iff_exists_mem_beq.mpr ⟨w.name, List.mem_filter.mpr ⟨hmem, ?_⟩, ?_⟩
      · rw [hf]
        rfl
      · exact beq_self_eq_true w.name
    rw [hct]
    rfl

theorem pruneStale_interfaces (d : DevState) (snap : List (Vlan × List VlanMemberEntry)) :
    (pruneStale d snap).interfaces = d.interfaces :=
  pruneFold_interfaces snap d.vlans d

theorem pruneStale_stp (d : DevState) (snap : List (Vlan × List VlanMemberEntry)) :
    (pruneStale d snap).stp_ports = d.stp_ports :=
  pruneFold_stp snap d.vlans d

theorem pruneStale_rels_keep (d : DevState) (snap : List (Vlan × List VlanMemberEntry))
    (rl : MemRel) (h : rl ∈ d.memberRels)
    (hcon : (snapNames snap).contains rl.vlanName = true) :
    rl ∈ (pruneStale d snap).memberRels :=
  pruneFold_rels_keep snap d.vlans d rl h hcon

theorem pruneStale_rels_subset (d : DevState) (snap : List (Vlan × List VlanMemberEntry))
    (rl : MemRel) (h : rl ∈ (pruneStale d snap).memberRels) : rl ∈ d.memberRels :=
  pruneFold_rels_subset snap d.vlans d rl h

theorem pruneStale_noop (d : DevState) (snap : List (Vlan × List VlanMemberEntry))
    (h : ∀ v ∈ d.vlans, (snapNames snap).contains v.name = true) :
    pruneStale d snap = d := by
  unfold pruneStale
  have hgen : ∀ (cur : List Vlan), (∀ v ∈ cur, (snapNames snap).contains v.name = true) →
      ∀ acc : DevState, cur.foldl (fun acc v =>
        if (snapNames snap).contains v.name then acc
        else del_vlan_from_dev acc v.name) acc = acc := by
    intro cur
    induction cur with
    | nil => intro _ acc; rfl
    | cons v cur ih =>
      intro hcur acc
      rw [List.foldl_cons, if_pos (hcur v (by simp))]
      exact ih (fun v' hv' => hcur v' (by simp [hv'])) acc
  exact hgen d.vlans h d

theorem connectMember_fact_self (d : DevState) (vn : Option String) (ifn : String)
    (tm : Option String) :
    (∃ rl ∈ (connectMember d vn ifn tm).memberRels, rl.vlanName = vn ∧ rl.ifName = ifn)
    ∧ (∀ rl ∈ (connectMember d vn ifn tm).memberRels,
        rl.vlanName = vn → rl.ifName = ifn → rl.tagging_mode = tm) := by
  unfold connectMember
  by_cases hany : d.memberRels.any (fun r => r.vlanName == vn && r.ifName == ifn) = true
  · rw [if_pos hany]
    obtain ⟨r, hr, hcond⟩ := List.any_eq_true.mp hany
    constructor
    · refine ⟨if (r.vlanName == vn && r.ifName == ifn) = true
          then { r with tagging_mode := tm } else r, List.mem_map_of_mem _ hr, ?_⟩
      rw [if_pos hcond]
      have h1 := (Bool.and_eq_true _ _ ▸ hcond).1
      have h2 := (Bool.and_eq_true _ _ ▸ hcond).2
      exact ⟨eq_of_beq h1, eq_of_beq h2⟩
    · intro rl hrl hv hi
      obtain ⟨r', hr', hfr'⟩ := List.mem_map.mp hrl
      by_cases hc : (r'.vlanName == vn && r'.ifName == ifn) = true
      · rw [if_pos hc] at hfr'
        rw [← hfr']
      · rw [if_neg hc] at hfr'
        exfalso
        apply hc
        rw [Bool.and_eq_true]
        rw [← hfr'] at hv hi
        exact ⟨beq_iff_eq.mpr hv, beq_iff_eq.mpr hi⟩
  · rw [if_neg hany]
    constructor
    · exact ⟨⟨vn, ifn, tm⟩, by simp, rfl, rfl⟩
    · intro rl hrl hv hi
      rcases List.mem_append.mp hrl with hold | hnew
      · exfalso
        apply hany
        exact List.any_eq_true.mpr ⟨rl, hold, by
          rw [Bool.and_eq_true]
          exact ⟨beq_iff_eq.mpr hv, beq_iff_eq.mpr hi⟩⟩
      · rw [List.mem_singleton] at hnew
        rw [hnew]

theorem connectMember_fact_other (d : DevState) (vn' : Option String) (ifn' : String)
    (tm' : Option String) (vn : Option String) (ifn : String) (tm : Option String)
    (hdiff : ¬ (vn = vn' ∧ ifn = ifn'))
    (hex : ∃ rl ∈ d.memberRels, rl.vlanName = vn ∧ rl.ifName = ifn)
    (hall : ∀ rl ∈ d.memberRels, rl.vlanName = vn → rl.ifName = ifn →
      rl.tagging_mode = tm) :
    (∃ rl ∈ (connectMember d vn' ifn' tm').memberRels,
      rl.vlanName = vn ∧ rl.ifName = ifn)
    ∧ (∀ rl ∈ (connectMember d vn' ifn' tm').memberRels,
        rl.vlanName = vn → rl.ifName = ifn → rl.tagging_mode = tm) := by
  have hmatch : ∀ r : MemRel, r.vlanName = vn → r.ifName = ifn →
      ¬ (r.vlanName == vn' && r.ifName == ifn') = true := by
    intro r hv hi hc
    have h1 := (Bool.and_eq_true _ _ ▸ hc).1
    have h2 := (Bool.and_eq_true _ _ ▸ hc).2
    exact hdiff ⟨hv ▸ eq_of_beq h1, hi ▸ eq_of_beq h2⟩
  unfold connectMember
  by_cases hany : d.memberRels.any (fun r => r.vlanName == vn' && r.ifName == ifn') = true
  · rw [if_pos hany]
    constructor
    · obtain ⟨r, hr, hrv, hri⟩ := hex
      refine ⟨if (r.vlanName == vn' && r.ifName == ifn') = true
          then { r with tagging_mode := tm' } else r, List.mem_map_of_mem _ hr, ?_⟩
      rw [if_neg (hmatch r hrv hri)]
      exact ⟨hrv, hri⟩
    · intro rl hrl hv hi
      obtain ⟨r', hr', hfr'⟩ := List.mem_map.mp hrl
      by_cases hc : (r'.vlanName == vn' && r'.ifName == ifn') = true
      · rw [if_pos hc] at hfr'
        exfalso
        apply hmatch r' _ _ hc
        · rw [← hv, ← hfr']
        · rw [← hi, ← hfr']
      · rw [if_neg hc] at hfr'
        rw [← hfr'] at hv hi ⊢
        exact hall r' hr' hv hi
  · rw [if_neg hany]
    constructor
    · obtain ⟨r, hr, hrv, hri⟩ := hex
      exact ⟨r, List.mem_append_left _ hr, hrv, hri⟩
    · intro rl hrl hv hi
      rcases List.mem_append.mp hrl with hold | hnew
      · exact hall rl hold hv hi
      · rw [List.mem_singleton] at hnew
        exfalso
        apply hdiff
        rw [hnew] at hv hi
        exact ⟨hv.symm, hi.symm⟩

theorem memberLoop_fact_pres (ms : List VlanMemberEntry) :
    ∀ (d : DevState) (v : Vlan)
    (_ : ∀ m ∈ ms, ∃ i, m.ifname = some i ∧ d.interfaces.contains i = true)
    (vn : Option String) (ifn : String) (tm : Option String)
    (_ : ∀ m ∈ ms, ∀ i, m.ifname = some i → ¬ (vn = v.name ∧ ifn = i))
    (_ : ∃ rl ∈ d.memberRels, rl.vlanName = vn ∧ rl.ifName = ifn)
    (_ : ∀ rl ∈ d.memberRels, rl.vlanName = vn → rl.ifName = ifn →
      rl.tagging_mode = tm),
    (∃ rl ∈ (memberLoop d (some v) ms).1.memberRels,
      rl.vlanName = vn ∧ rl.ifName = ifn)
    ∧ (∀ rl ∈ (memberLoop d (some v) ms).1.memberRels,
        rl.vlanName = vn → rl.ifName = ifn → rl.tagging_mode = tm) := by
  induction ms with
  | nil =>
    intro d v _ vn ifn tm _ hex hall
    exact ⟨hex, hall⟩
  | cons m0 rest ih =>
    intro d v hres vn ifn tm hdiff hex hall
    obtain ⟨i0, hmi, hci⟩ := hres m0 (by simp)
    simp only [memberLoop, hmi, getInterface_of_contains d i0 hci]
    have hfact := connectMember_fact_other d v.name i0 m0.tagging_mode vn ifn tm
      (hdiff m0 (by simp) i0 hmi) hex hall
    exact ih (connectMember d v.name i0 m0.tagging_mode) v
      (fun m' hm' => by
        rw [connectMember_interfaces]
        exact hres m' (by simp [hm']))
      vn ifn tm
      (fun m' hm' i' hi' => hdiff m' (by simp [hm']) i' hi')
      hfact.1 hfact.2

theorem memberLoop_fact_new (ms : List VlanMemberEntry) :
    ∀ (d : DevState) (v : Vlan)
    (_ : ∀ m ∈ ms, ∃ i, m.ifname = some i ∧ d.interfaces.contains i = true)
    (_ : (ms.map (fun m => m.ifname)).Nodup),
    ∀ m ∈ ms, ∀ i, m.ifname = some i →
    (∃ rl ∈ (memberLoop d (some v) ms).1.memberRels,
      rl.vlanName = v.name ∧ rl.ifName = i)
    ∧ (∀ rl ∈ (memberLoop d (some v) ms).1.memberRels,
        rl.vlanName = v.name → rl.ifName = i → rl.tagging_mode = m.tagging_mode) := by
  induction ms with
  | nil =>
    intro d v _ _ m hm
    simp at hm
  | cons m0 rest ih =>
    intro d v hres hnd m hm i hi
    obtain ⟨i0, hmi, hci⟩ := hres m0 (by simp)
    simp only [memberLoop, hmi, getInterface_of_contains d i0 hci]
    simp only [List.map_cons, List.nodup_cons] at hnd
    rcases List.mem_cons.mp hm with hm | hm
    · have hi0 : m0.ifname = some i := hm ▸ hi
      have hii : i0 = i := Option.some.inj (hmi.symm.trans hi0)
      subst hii
      have hfact := connectMember_fact_self d v.name i0 m0.tagging_mode
      have hpres := memberLoop_fact_pres rest (connectMember d v.name i0 m0.tagging_mode) v
        (fun m' hm' => by
          rw [connectMember_interfaces]
          exact hres m' (by simp [hm']))
        v.name i0 m0.tagging_mode
        (fun m' hm' i' hi' hcontra => by
          apply hnd.1
          rw [hmi, hcontra.2, ← hi']
          exact List.mem_map_of_mem _ hm')
        hfact.1 hfact.2
      rw [hm]
      exact hpres
    · exact ih (connectMember d v.name i0 m0.tagging_mode) v
        (fun m' hm' => by
          rw [connectMember_interfaces]
          exact hres m' (by simp [hm']))
        hnd.2 m hm i hi

theorem devVlanQuery_named (d : DevState) (nm : String) (hne : nm ≠ "") :
    devVlanQuery d (some nm) = .single (d.vlans.find? (fun v => v.name == some nm)) := by
  simp only [devVlanQuery]
  rw [if_neg hne]

theorem insertEntry_update (d : DevState) (p : Vlan × List VlanMemberEntry)
    (nm : String) (v0 : Vlan)
    (hnm : p.1.name = some nm) (hne : nm ≠ "")
    (hf : d.vlans.find? (fun w => w.name == some nm) = some v0)
    (hres : ∀ m ∈ p.2, ∃ i, m.ifname = some i ∧ d.interfaces.contains i = true) :
    (insertEntry d p).2 = none
    ∧ (insertEntry d p).1.vlans = replaceFirst (fun w => w.name == some nm)
        (fun w => copy_vlan_obj_prop w p.1) d.vlans
    ∧ (insertEntry d p).1.interfaces = d.interfaces
    ∧ (insertEntry d p).1.stp_ports = d.stp_ports
    ∧ ((p.2.map (fun m => m.ifname)).Nodup → ∀ m ∈ p.2, ∀ i, m.ifname = some i →
        (∃ rl ∈ (insertEntry d p).1.memberRels, rl.vlanName = some nm ∧ rl.ifName = i)
        ∧ (∀ rl ∈ (insertEntry d p).1.memberRels, rl.vlanName = some nm →
            rl.ifName = i → rl.tagging_mode = m.tagging_mode))
    ∧ (∀ vn ifn tm, vn ≠ some nm →
        (∃ rl ∈ d.memberRels, rl.vlanName = vn ∧ rl.ifName = ifn) →
        (∀ rl ∈ d.memberRels, rl.vlanName = vn → rl.ifName = ifn →
          rl.tagging_mode = tm) →
        (∃ rl ∈ (insertEntry d p).1.memberRels, rl.vlanName = vn ∧ rl.ifName = ifn)
        ∧ (∀ rl ∈ (insertEntry d p).1.memberRels, rl.vlanName = vn → rl.ifName = ifn →
            rl.tagging_mode = tm)) := by
  have hq1 : devVlanQuery d (some nm) = .single (some v0) := by
    rw [devVlanQuery_named d nm hne, hf]
  have hsvname : (copy_vlan_obj_prop v0 p.1).name = some nm := hnm
  have hq2 : devVlanQuery
      { d with vlans := (replaceFirst (fun w => w.name == some nm)
          (fun w => copy_vlan_obj_prop w p.1) d.vlans) } (some nm) =
      .single (some (copy_vlan_obj_prop v0 p.1)) := by
    rw [devVlanQuery_named _ nm hne]
    refine congrArg _ ?_
    show (replaceFirst (fun w => w.name == some nm)
        (fun w => copy_vlan_obj_prop w p.1) d.vlans).find?
        (fun v => v.name == some nm) = some (copy_vlan_obj_prop v0 p.1)
    exact find?_replaceFirst_same _ _ d.vlans v0 hf (by rw [hsvname]; exact beq_self_eq_true _)
  have hcomp : insertEntry d p = memberLoop
      { d with vlans := (replaceFirst (fun w => w.name == some nm)
          (fun w => copy_vlan_obj_prop w p.1) d.vlans) }
      (some (copy_vlan_obj_prop v0 p.1)) p.2 := by
    simp only [insertEntry]
    rw [hnm]
    simp only [hq1, hq2]
  have hres1 : ∀ m ∈ p.2, ∃ i, m.ifname = some i ∧
      ({ d with vlans := (replaceFirst (fun w => w.name == some nm)
          (fun w => copy_vlan_obj_prop w p.1) d.vlans) } : DevState).interfaces.contains i
        = true := hres
  refine ⟨?_, ?_, ?_, ?_, ?_, ?_⟩
  · rw [hcomp]
    exact memberLoop_ok p.2 _ _ hres1
  · rw [hcomp, memberLoop_vlans]
  · rw [hcomp, memberLoop_interfaces]
  · rw [hcomp, memberLoop_stp]
  · intro hnd m hm i hi
    rw [hcomp]
    have := memberLoop_fact_new p.2 _ (copy_vlan_obj_prop v0 p.1) hres1 hnd m hm i hi
    rw [hsvname] at this
    exact this
  · intro vn ifn tm hvn hex hall
    rw [hcomp]
    exact memberLoop_fact_pres p.2 _ (copy_vlan_obj_prop v0 p.1) hres1 vn ifn tm
      (fun m' _ i' _ hcontra => hvn (by rw [hcontra.1, hsvname])) hex hall

theorem insertEntry_insert (d : DevState) (p : Vlan × List VlanMemberEntry)
    (nm : String)
    (hnm : p.1.name = some nm) (hne : nm ≠ "")
    (hf : d.vlans.find? (fun w => w.name == some nm) = none)
    (hres : ∀ m ∈ p.2, ∃ i, m.ifname = some i ∧ d.interfaces.contains i = true) :
    (insertEntry d p).2 = none
    ∧ (insertEntry d p).1.vlans = d.vlans ++ [p.1]
    ∧ (insertEntry d p).1.interfaces = d.interfaces
    ∧ (insertEntry d p).1.stp_ports = d.stp_ports
    ∧ ((p.2.map (fun m => m.ifname)).Nodup → ∀ m ∈ p.2, ∀ i, m.ifname = some i →
        (∃ rl ∈ (insertEntry d p).1.memberRels, rl.vlanName = some nm ∧ rl.ifName = i)
        ∧ (∀ rl ∈ (insertEntry d p).1.memberRels, rl.vlanName = some nm →
            rl.ifName = i → rl.tagging_mode = m.tagging_mode))
    ∧ (∀ vn ifn tm, vn ≠ some nm →
        (∃ rl ∈ d.memberRels, rl.vlanName = vn ∧ rl.ifName = ifn) →
        (∀ rl ∈ d.memberRels, rl.vlanName = vn → rl.ifName = ifn →
          rl.tagging_mode = tm) →
        (∃ rl ∈ (insertEntry d p).1.memberRels, rl.vlanName = vn ∧ rl.ifName = ifn)
        ∧ (∀ rl ∈ (insertEntry d p).1.memberRels, rl.vlanName = vn → rl.ifName = ifn →
            rl.tagging_mode = tm)) := by
  have hq1 : devVlanQuery d (some nm) = .single none := by
    rw [devVlanQuery_named d nm hne, hf]
  have hq2 : devVlanQuery ({ d with vlans := d.vlans ++ [p.1] }) (some nm) =
      .single (some p.1) := by
    rw [devVlanQuery_named _ nm hne]
    refine congrArg _ ?_
    show (d.vlans ++ [p.1]).find? (fun v => v.name == some nm) = some p.1
    rw [List.find?_append, hf]
    rw [List.find?_cons_of_pos _ (by rw [hnm]; exact beq_self_eq_true _)]
    rfl
  have hcomp : insertEntry d p =
      memberLoop ({ d with vlans := d.vlans ++ [p.1] }) (some p.1) p.2 := by
    simp only [insertEntry]
    rw [hnm]
    simp only [hq1, hq2]
  have hres1 : ∀ m ∈ p.2, ∃ i, m.ifname = some i ∧
      ({ d with vlans := d.vlans ++ [p.1] } : DevState).interfaces.contains i = true :=
    hres
  refine ⟨?_, ?_, ?_, ?_, ?_, ?_⟩
  · rw [hcomp]
    exact memberLoop_ok p.2 _ _ hres1
  · rw [hcomp, memberLoop_vlans]
  · rw [hcomp, memberLoop_interfaces]
  · rw [hcomp, memberLoop_stp]
  · intro hnd m hm i hi
    rw [hcomp]
    have := memberLoop_fact_new p.2 _ p.1 hres1 hnd m hm i hi
    rw [hnm] at this
    exact this
  · intro vn ifn tm hvn hex hall
    rw [hcomp]
    exact memberLoop_fact_pres p.2 _ p.1 hres1 vn ifn tm
      (fun m' _ i' _ hcontra => hvn (by rw [hcontra.1, hnm])) hex hall

theorem contains_names_of_find (l : List Vlan) (nm : String) (v0 : Vlan)
    (hf : l.find? (fun w => w.name == some nm) = some v0) :
    (l.map (fun v => v.name)).contains (some nm) = true := by
  have hb := List.find?_some hf
  have hv0 : v0.name = some nm := eq_of_beq hb
  refine List.contains_iff_exists_mem_beq.mpr ⟨v0.name, List.mem_map_of_mem _
    (List.mem_of_find?_eq_some hf), ?_⟩
  rw [hv0]
  exact beq_self_eq_true _

theorem contains_names_of_find_none (l : List Vlan) (nm : String)
    (hf : l.find? (fun w => w.name == some nm) = none) :
    (l.map (fun v => v.name)).contains (some nm) = false := by
  by_contra hcc
  have hcc' : (l.map (fun v => v.name)).contains (some nm) = true := by
    revert hcc
    cases (l.map (fun v => v.name)).contains (some nm) <;> simp
  obtain ⟨x, hx, hbeq⟩ := List.contains_iff_exists_mem_beq.mp hcc'
  obtain ⟨w, hw, hwx⟩ := List.mem_map.mp hx
  have : some nm = x := eq_of_beq hbeq
  have hwnm : w.name = some nm := by rw [hwx, ← this]
  have := List.find?_eq_none.mp hf w hw
  apply this
  rw [hwnm]
  exact beq_self_eq_true _

theorem find?_append_singleton_none (l : List Vlan) (v : Vlan) (Q : Vlan → Bool)
    (hQ : Q v = false) : (l ++ [v]).find? Q = l.find? Q := by
  rw [List.find?_append]
  cases h : l.find? Q with
  | some w => rfl
  | none =>
    rw [List.find?_cons_of_neg _ (by simp [hQ])]
    rfl

theorem contains_append_singleton (l : List (Option String)) (a b : Option String)
    (h : (a == b) = false) : (l ++ [b]).contains a = l.contains a := by
  induction l with
  | nil =>
    simp only [List.nil_append, List.contains_cons, h]
    rfl
  | cons c cs ih =>
    simp only [List.cons_append, List.contains_cons, ih]

theorem insertLoop_master (snap : List (Vlan × List VlanMemberEntry)) :
    ∀ (t : DevState),
    (∀ q ∈ snap, ∃ nm, q.1.name = some nm ∧ nm ≠ "") →
    (∀ q ∈ snap, ∀ m ∈ q.2, ∃ i, m.ifname = some i ∧ t.interfaces.contains i = true) →
    (snapNames snap).Nodup →
    (∀ q ∈ snap, (q.2.map (fun m => m.ifname)).Nodup) →
    (insertLoop t snap).2 = none
    ∧ (insertLoop t snap).1.interfaces = t.interfaces
    ∧ (insertLoop t snap).1.stp_ports = t.stp_ports
    ∧ ((insertLoop t snap).1.vlans.map (fun v => v.name) =
        t.vlans.map (fun v => v.name) ++
          (snapNames snap).filter
            (fun x => ! (t.vlans.map (fun v => v.name)).contains x))
    ∧ (∀ v' ∈ t.vlans, v'.name ∉ snapNames snap → v' ∈ (insertLoop t snap).1.vlans)
    ∧ (∀ q ∈ snap, expectedEntity t q ∈ (insertLoop t snap).1.vlans)
    ∧ (∀ vn ifn tm, vn ∉ snapNames snap →
        (∃ rl ∈ t.memberRels, rl.vlanName = vn ∧ rl.ifName = ifn) →
        (∀ rl ∈ t.memberRels, rl.vlanName = vn → rl.ifName = ifn →
          rl.tagging_mode = tm) →
        (∃ rl ∈ (insertLoop t snap).1.memberRels, rl.vlanName = vn ∧ rl.ifName = ifn)
        ∧ (∀ rl ∈ (insertLoop t snap).1.memberRels, rl.vlanName = vn →
            rl.ifName = ifn → rl.tagging_mode = tm))
    ∧ (∀ q ∈ snap, ∀ m ∈ q.2, ∀ i, m.ifname = some i →
        (∃ rl ∈ (insertLoop t snap).1.memberRels,
          rl.vlanName = q.1.name ∧ rl.ifName = i)
        ∧ (∀ rl ∈ (insertLoop t snap).1.memberRels, rl.vlanName = q.1.name →
            rl.ifName = i → rl.tagging_mode = m.tagging_mode)) := by
  induction snap with
  | nil =>
    intro t _ _ _ _
    refine ⟨rfl, rfl, rfl, ?_, ?_, ?_, ?_, ?_⟩
    · simp [snapNames, insertLoop]
    · intro v' hv' _
      exact hv'
    · intro q hq
      simp at hq
    · intro vn ifn tm _ hex hall
      exact ⟨hex, hall⟩
    · intro q hq
      simp at hq
  | cons q rest ih =>
    intro t hname hres hnd hmnd
    obtain ⟨nm, hnm, hne⟩ := hname q (by simp)
    have hsn : snapNames (q :: rest) = q.1.name :: snapNames rest := rfl
    have hndc : q.1.name ∉ snapNames rest ∧ (snapNames rest).Nodup := by
      rw [hsn] at hnd
      exact List.nodup_cons.mp hnd
    have hqname_rest : ∀ q' ∈ rest, q'.1.name ≠ q.1.name := by
      intro q' hq' heq
      apply hndc.1
      rw [← heq]
      exact List.mem_map_of_mem _ hq'
    cases hfq : t.vlans.find? (fun w => w.name == some nm) with
    | some v0 =>
      have he := insertEntry_update t q nm v0 hnm hne hfq (hres q (by simp))
      have hloop : insertLoop t (q :: rest) = insertLoop (insertEntry t q).1 rest := by
        have h1 := he.1
        cases hE : insertEntry t q with
        | mk d1 e1 =>
          rw [hE] at h1
          replace h1 : e1 = none := h1
          subst h1
          simp only [insertLoop]
          rw [hE]
      have hnames1 : (insertEntry t q).1.vlans.map (fun v => v.name) =
          t.vlans.map (fun v => v.name) := by
        rw [he.2.1]
        apply replaceFirst_map_name
        intro w hw
        have hwn : w.name = some nm := eq_of_beq hw
        show q.1.name = w.name
        rw [hwn, hnm]
      obtain ⟨ih1, ih2, ih3, ih4, ih5, ih6, ih7, ih8⟩ := ih (insertEntry t q).1
        (fun q' hq' => hname q' (by simp [hq']))
        (fun q' hq' m hm => by
          rw [he.2.2.1]
          exact hres q' (by simp [hq']) m hm)
        hndc.2
        (fun q' hq' => hmnd q' (by simp [hq']))
      have hcontains : (t.vlans.map (fun v => v.name)).contains q.1.name = true := by
        rw [hnm]
        exact contains_names_of_find t.vlans nm v0 hfq
      refine ⟨?_, ?_, ?_, ?_, ?_, ?_, ?_, ?_⟩
      · rw [hloop]
        exact ih1
      · rw [hloop, ih2, he.2.2.1]
      · rw [hloop, ih3, he.2.2.2.1]
      · rw [hloop, ih4, hnames1, hsn, List.filter_cons]
        rw [if_neg (by rw [hcontains]; decide)]
      · intro v' hv' hnv'
        rw [hsn] at hnv'
        have hne' : ¬ (v'.name == some nm) = true := by
          intro hb
          apply hnv'
          rw [eq_of_beq hb, ← hnm]
          simp
        rw [hloop]
        apply ih5
        · rw [he.2.1]
          exact mem_replaceFirst_of_not _ _ _ _ hv' hne'
        · intro hmem
          exact hnv' (by simp [hmem])
      · intro q' hq'
        rw [hloop]
        rcases List.mem_cons.mp hq' with hq' | hq'
        · subst hq'
          have hexp : expectedEntity t q' = copy_vlan_obj_prop v0 q'.1 := by
            unfold expectedEntity
            rw [hnm, hfq]
          rw [hexp]
          apply ih5
          · rw [he.2.1]
            exact List.mem_of_find?_eq_some
              (find?_replaceFirst_same _ _ t.vlans v0 hfq
                (by show (q'.1.name == some nm) = true
                    rw [hnm]
                    exact beq_self_eq_true _))
          · show (copy_vlan_obj_prop v0 q'.1).name ∉ snapNames rest
            show q'.1.name ∉ snapNames rest
            exact hndc.1
        · have hfeq : (insertEntry t q).1.vlans.find?
              (fun w => w.name == q'.1.name) =
              t.vlans.find? (fun w => w.name == q'.1.name) := by
            rw [he.2.1]
            apply find?_replaceFirst_other
            intro w hw hPw
            have hwn : w.name = some nm := eq_of_beq hPw
            constructor
            · rw [hwn]
              refine beq_eq_false_iff_ne.mpr ?_
              rw [← hnm]
              exact fun hcc => hqname_rest q' hq' hcc.symm
            · show ((copy_vlan_obj_prop w q.1).name == q'.1.name) = false
              show (q.1.name == q'.1.name) = false
              refine beq_eq_false_iff_ne.mpr ?_
              exact fun hcc => hqname_rest q' hq' hcc.symm
          have hexp : expectedEntity (insertEntry t q).1 q' = expectedEntity t q' := by
            unfold expectedEntity
            rw [hfeq]
          rw [← hexp]
          exact ih6 q' hq'
      · intro vn ifn tm hvn hex hall
        rw [hsn] at hvn
        have hvn1 : vn ≠ some nm := by
          intro hcc
          apply hvn
          rw [hcc, ← hnm]
          simp
        have hvn2 : vn ∉ snapNames rest := fun hcc => hvn (by simp [hcc])
        have hfact := he.2.2.2.2.2 vn ifn tm hvn1 hex hall
        rw [hloop]
        exact ih7 vn ifn tm hvn2 hfact.1 hfact.2
      · intro q' hq' m hm i hi
        rw [hloop]
        rcases List.mem_cons.mp hq' with hq' | hq'
        · subst hq'
          have hfact := he.2.2.2.2.1 (hmnd q' (by simp)) m hm i hi
          have hq1nm : q'.1.name = some nm := hnm
          rw [hq1nm]
          exact ih7 (some nm) i m.tagging_mode (by rw [← hq1nm]; exact hndc.1)
            hfact.1 hfact.2
        · exact ih8 q' hq' m hm i hi
    | none =>
      have he := insertEntry_insert t q nm hnm hne hfq (hres q (by simp))
      have hloop : insertLoop t (q :: rest) = insertLoop (insertEntry t q).1 rest := by
        have h1 := he.1
        cases hE : insertEntry t q with
        | mk d1 e1 =>
          rw [hE] at h1
          replace h1 : e1 = none := h1
          subst h1
          simp only [insertLoop]
          rw [hE]
      have hnames1 : (insertEntry t q).1.vlans.map (fun v => v.name) =
          t.vlans.map (fun v => v.name) ++ [q.1.name] := by
        rw [he.2.1, List.map_append]
        rfl
      obtain ⟨ih1, ih2, ih3, ih4, ih5, ih6, ih7, ih8⟩ := ih (insertEntry t q).1
        (fun q' hq' => hname q' (by simp [hq']))
        (fun q' hq' m hm => by
          rw [he.2.2.1]
          exact hres q' (by simp [hq']) m hm)
        hndc.2
        (fun q' hq' => hmnd q' (by simp [hq']))
      have hcontains : (t.vlans.map (fun v => v.name)).contains q.1.name = false := by
        rw [hnm]
        exact contains_names_of_find_none t.vlans nm hfq
      refine ⟨?_, ?_, ?_, ?_, ?_, ?_, ?_, ?_⟩
      · rw [hloop]
        exact ih1
      · rw [hloop, ih2, he.2.2.1]
      · rw [hloop, ih3, he.2.2.2.1]
      · rw [hloop, ih4, hnames1, hsn, List.filter_cons]
        rw [if_pos (by rw [hcontains]; decide)]
        have hfe : (snapNames rest).filter
            (fun x => ! ((t.vlans.map (fun v => v.name)) ++ [q.1.name]).contains x) =
            (snapNames rest).filter
            (fun x => ! (t.vlans.map (fun v => v.name)).contains x) := by
          apply List.filter_congr
          intro x hx
          have hxne : (x == q.1.name) = false := by
            refine beq_eq_false_iff_ne.mpr ?_
            intro hcc
            exact hndc.1 (hcc ▸ hx)
          rw [contains_append_singleton _ _ _ hxne]
        rw [hfe, List.append_assoc]
        rfl
      · intro v' hv' hnv'
        rw [hsn] at hnv'
        rw [hloop]
        apply ih5
        · rw [he.2.1]
          exact List.mem_append_left _ hv'
        · intro hmem
          exact hnv' (by simp [hmem])
      · intro q' hq'
        rw [hloop]
        rcases List.mem_cons.mp hq' with hq' | hq'
        · subst hq'
          have hexp : expectedEntity t q' = q'.1 := by
            unfold expectedEntity
            rw [hnm, hfq]
          rw [hexp]
          apply ih5
          · rw [he.2.1]
            exact List.mem_append_right _ (by simp)
          · show q'.1.name ∉ snapNames rest
            exact hndc.1
        · have hfeq : (insertEntry t q).1.vlans.find?
              (fun w => w.name == q'.1.name) =
              t.vlans.find? (fun w => w.name == q'.1.name) := by
            rw [he.2.1]
            apply find?_append_singleton_none
            show (q.1.name == q'.1.name) = false
            refine beq_eq_false_iff_ne.mpr ?_
            exact fun hcc => hqname_rest q' hq' hcc.symm
          have hexp : expectedEntity (insertEntry t q).1 q' = expectedEntity t q' := by
            unfold expectedEntity
            rw [hfeq]
          rw [← hexp]
          exact ih6 q' hq'
      · intro vn ifn tm hvn hex hall
        rw [hsn] at hvn
        have hvn1 : vn ≠ some nm := by
          intro hcc
          apply hvn
          rw [hcc, ← hnm]
          simp
        have hvn2 : vn ∉ snapNames rest := fun hcc => hvn (by simp [hcc])
        have hfact := he.2.2.2.2.2 vn ifn tm hvn1 hex hall
        rw [hloop]
        exact ih7 vn ifn tm hvn2 hfact.1 hfact.2
      · intro q' hq' m hm i hi
        rw [hloop]
        rcases List.mem_cons.mp hq' with hq' | hq'
        · subst hq'
          have hfact := he.2.2.2.2.1 (hmnd q' (by simp)) m hm i hi
          have hq1nm : q'.1.name = some nm := hnm
          rw [hq1nm]
          exact ih7 (some nm) i m.tagging_mode (by rw [← hq1nm]; exact hndc.1)
            hfact.1 hfact.2
        · exact ih8 q' hq' m hm i hi

theorem expectedEntity_name (s : DevState) (q : Vlan × List VlanMemberEntry) :
    (expectedEntity s q).name = q.1.name := by
  unfold expectedEntity
  split <;> rfl

theorem mem_contains_names (xs : List (Option String)) (x : Option String)
    (h : x ∈ xs) : xs.contains x = true :=
  List.contains_iff_exists_mem_beq.mpr ⟨x, h, beq_self_eq_true x⟩

theorem contains_names_mem (xs : List (Option String)) (x : Option String)
    (h : xs.contains x = true) : x ∈ xs := by
  obtain ⟨y, hy, hbeq⟩ := List.contains_iff_exists_mem_beq.mp h
  rw [eq_of_beq hbeq]
  exact hy

theorem insert_vlan_in_db_spec (s : DevState) (snap : List (Vlan × List VlanMemberEntry))
    (hstore : (s.vlans.map (fun v => v.name)).Nodup)
    (hname : ∀ q ∈ snap, ∃ nm, q.1.name = some nm ∧ nm ≠ "")
    (hsnd : (snapNames snap).Nodup)
    (hres : ∀ q ∈ snap, ∀ m ∈ q.2, ∃ i, m.ifname = some i ∧
      s.interfaces.contains i = true)
    (hmnd : ∀ q ∈ snap, (q.2.map (fun m => m.ifname)).Nodup) :
    (insert_vlan_in_db s snap).2 = none
    ∧ (insert_vlan_in_db s snap).1.interfaces = s.interfaces
    ∧ (insert_vlan_in_db s snap).1.stp_ports = s.stp_ports
    ∧ ((insert_vlan_in_db s snap).1.vlans.map (fun v => v.name)).Nodup
    ∧ (∀ q ∈ snap, expectedEntity s q ∈ (insert_vlan_in_db s snap).1.vlans)
    ∧ (∀ v' ∈ (insert_vlan_in_db s snap).1.vlans, v'.name ∈ snapNames snap)
    ∧ (∀ q ∈ snap, ∀ m ∈ q.2, ∀ i, m.ifname = some i →
        (∃ rl ∈ (insert_vlan_in_db s snap).1.memberRels,
          rl.vlanName = q.1.name ∧ rl.ifName = i)
        ∧ (∀ rl ∈ (insert_vlan_in_db s snap).1.memberRels, rl.vlanName = q.1.name →
            rl.ifName = i → rl.tagging_mode = m.tagging_mode)) := by
  obtain ⟨m1, m2, m3, m4, m5, m6, m7, m8⟩ := insertLoop_master snap s hname hres hsnd hmnd
  have hloopnd : ((insertLoop s snap).1.vlans.map (fun v => v.name)).Nodup := by
    rw [m4]
    refine List.Nodup.append hstore ?_ ?_
    · exact List.Nodup.sublist (List.filter_sublist _) hsnd
    · rw [List.disjoint_left]
      intro a ha hf
      obtain ⟨haf, hpred⟩ := List.mem_filter.mp hf
      have : (s.vlans.map (fun v => v.name)).contains a = true := mem_contains_names _ a ha
      rw [this] at hpred
      exact absurd hpred (by decide)
  have hcomp : insert_vlan_in_db s snap =
      (pruneStale (insertLoop s snap).1 snap, none) := by
    cases hE : insertLoop s snap with
    | mk d1 e1 =>
      rw [hE] at m1
      replace m1 : e1 = none := m1
      subst m1
      simp only [insert_vlan_in_db]
      rw [hE]
  have hpv := pruneStale_vlans (insertLoop s snap).1 snap hloopnd
  refine ⟨?_, ?_, ?_, ?_, ?_, ?_, ?_⟩
  · rw [hcomp]
  · rw [hcomp]
    show (pruneStale (insertLoop s snap).1 snap).interfaces = s.interfaces
    rw [pruneStale_interfaces, m2]
  · rw [hcomp]
    show (pruneStale (insertLoop s snap).1 snap).stp_ports = s.stp_ports
    rw [pruneStale_stp, m3]
  · rw [hcomp]
    show ((pruneStale (insertLoop s snap).1 snap).vlans.map (fun v => v.name)).Nodup
    rw [hpv]
    exact List.Nodup.sublist (List.Sublist.map _ (List.filter_sublist _)) hloopnd
  · intro q hq
    rw [hcomp]
    show expectedEntity s q ∈ (pruneStale (insertLoop s snap).1 snap).vlans
    rw [hpv]
    refine List.mem_filter.mpr ⟨m6 q hq, ?_⟩
    rw [expectedEntity_name]
    exact mem_contains_names _ _ (List.mem_map_of_mem _ hq)
  · intro v' hv'
    rw [hcomp] at hv'
    replace hv' : v' ∈ (pruneStale (insertLoop s snap).1 snap).vlans := hv'
    rw [hpv] at hv'
    obtain ⟨hmem, hcon⟩ := List.mem_filter.mp hv'
    exact contains_names_mem _ _ hcon
  · intro q hq m hm i hi
    have hfact := m8 q hq m hm i hi
    rw [hcomp]
    constructor
    · obtain ⟨rl, hrl, hrlv, hrli⟩ := hfact.1
      refine ⟨rl, ?_, hrlv, hrli⟩
      show rl ∈ (pruneStale (insertLoop s snap).1 snap).memberRels
      refine pruneStale_rels_keep _ snap rl hrl ?_
      rw [hrlv]
      exact mem_contains_names _ _ (List.mem_map_of_mem _ hq)
    · intro rl hrl hrlv hrli
      replace hrl : rl ∈ (pruneStale (insertLoop s snap).1 snap).memberRels := hrl
      exact hfact.2 rl (pruneStale_rels_subset _ snap rl hrl) hrlv hrli

theorem expectedEntity_scalar (s : DevState) (q : Vlan × List VlanMemberEntry) :
    scalarCopyEq (expectedEntity s q) q.1 := by
  unfold expectedEntity
  split
  · exact ⟨rfl, rfl, rfl, rfl, rfl⟩
  · exact ⟨rfl, rfl, rfl, rfl, rfl⟩

/-- C1 counterexample: a device whose store already holds `Vlan10` with
`autostate = "enable"` reconciled against a snapshot carrying
`autostate = "disable"` — reconciliation succeeds, `mtu` and `oper_status`
are updated, but the surviving entity keeps the old `autostate` (the
in-place update `copy_vlan_obj_prop` copies only `vlanid`, `name`, `mtu`,
`admin_status`, `oper_status`), so not every scalar attribute equals the
snapshot. -/
theorem c1_reconcile_counterexample :
    insert_vlan_in_db
      ⟨[⟨some 10, some "Vlan10", some 9000, some "UP", some "UP", some "enable",
        none, none⟩], [], [], []⟩
      [(⟨some 10, some "Vlan10", some 9100, some "UP", some "DOWN", some "disable",
        none, none⟩, [])] =
    (⟨[⟨some 10, some "Vlan10", some 9100, some "UP", some "DOWN", some "enable",
      none, none⟩], [], [], []⟩, none)
    ∧ (some "enable" : Option String) ≠ some "disable" := by
  exact ⟨rfl, by decide⟩

/-- C1 (amended): after a successful reconciliation the store's entity-name
set equals the snapshot's name set, and each surviving entity is exactly
`expectedEntity`: the snapshot entity itself when it is new, or the
in-place `copy_vlan_obj_prop` update of the pre-existing entity — whose
`vlanid`, `name`, `mtu`, `admin_status` and `oper_status` equal the
snapshot's (`scalarCopyEq`) while `autostate`, `ip_address` and
`sag_ip_address` retain the pre-existing entity's values. -/
theorem c1_reconcile_amended (s : DevState) (snap : List (Vlan × List VlanMemberEntry))
    (hstore : (s.vlans.map (fun v => v.name)).Nodup)
    (hname : ∀ q ∈ snap, ∃ nm, q.1.name = some nm ∧ nm ≠ "")
    (hsnd : (snapNames snap).Nodup)
    (hres : ∀ q ∈ snap, ∀ m ∈ q.2, ∃ i, m.ifname = some i ∧
      s.interfaces.contains i = true)
    (hmnd : ∀ q ∈ snap, (q.2.map (fun m => m.ifname)).Nodup) :
    (insert_vlan_in_db s snap).2 = none
    ∧ (∀ nm : String,
        (∃ v' ∈ (insert_vlan_in_db s snap).1.vlans, v'.name = some nm)
        ↔ (∃ q ∈ snap, q.1.name = some nm))
    ∧ (∀ q ∈ snap, expectedEntity s q ∈ (insert_vlan_in_db s snap).1.vlans
        ∧ scalarCopyEq (expectedEntity s q) q.1)
    ∧ (∀ v' ∈ (insert_vlan_in_db s snap).1.vlans, ∀ q ∈ snap,
        v'.name = q.1.name → v' = expectedEntity s q) := by
  obtain ⟨s1, s2, s3, s4, s5, s6, s7⟩ :=
    insert_vlan_in_db_spec s snap hstore hname hsnd hres hmnd
  refine ⟨s1, ?_, ?_, ?_⟩
  · intro nm
    constructor
    · intro ⟨v', hv', hvn⟩
      have := s6 v' hv'
      rw [hvn] at this
      obtain ⟨q, hq, hqn⟩ := List.mem_map.mp this
      exact ⟨q, hq, hqn⟩
    · intro ⟨q, hq, hqn⟩
      refine ⟨expectedEntity s q, s5 q hq, ?_⟩
      rw [expectedEntity_name, hqn]
  · intro q hq
    exact ⟨s5 q hq, expectedEntity_scalar s q⟩
  · intro v' hv' q hq hvn
    have hexp := s5 q hq
    refine List.inj_on_of_nodup_map s4 hv' hexp ?_
    show v'.name = (expectedEntity s q).name
    rw [expectedEntity_name, hvn]

/-- Witness for the amended C1: store with `Vlan10` (autostate `"enable"`),
snapshot updating it (autostate `"disable"`) with one resolvable tagged
member — reconciliation succeeds, the name set matches, and the surviving
entity is the in-place update. -/
theorem c1_reconcile_amended_witness :
    (insert_vlan_in_db
      ⟨[⟨some 10, some "Vlan10", some 9000, some "UP", some "UP", some "enable",
        none, none⟩], [], ["Ethernet0"], []⟩
      [(⟨some 10, some "Vlan10", some 9100, some "UP", some "DOWN", some "disable",
        none, none⟩, [⟨some "Vlan10", some "Ethernet0", some "tagged"⟩])]).2 = none
    ∧ (∃ v' ∈ (insert_vlan_in_db
      ⟨[⟨some 10, some "Vlan10", some 9000, some "UP", some "UP", some "enable",
        none, none⟩], [], ["Ethernet0"], []⟩
      [(⟨some 10, some "Vlan10", some 9100, some "UP", some "DOWN", some "disable",
        none, none⟩, [⟨some "Vlan10", some "Ethernet0", some "tagged"⟩])]).1.vlans,
        v'.name = some "Vlan10") := by
  have h := c1_reconcile_amended
    ⟨[⟨some 10, some "Vlan10", some 9000, some "UP", some "UP", some "enable",
      none, none⟩], [], ["Ethernet0"], []⟩
    [(⟨some 10, some "Vlan10", some 9100, some "UP", some "DOWN", some "disable",
      none, none⟩, [⟨some "Vlan10", some "Ethernet0", some "tagged"⟩])]
    (by decide)
    (fun q hq => by
      rw [List.mem_singleton] at hq
      exact ⟨"Vlan10", by rw [hq], by decide⟩)
    (by decide)
    (fun q hq m hm => by
      rw [List.mem_singleton] at hq
      rw [hq] at hm
      rw [List.mem_singleton] at hm
      exact ⟨"Ethernet0", by rw [hm], by decide⟩)
    (fun q hq => by
      rw [List.mem_singleton] at hq
      rw [hq]
      decide)
  exact ⟨h.1, (h.2.1 "Vlan10").mpr
    ⟨(⟨some 10, some "Vlan10", some 9100, some "UP", some "DOWN", some "disable",
      none, none⟩, [⟨some "Vlan10", some "Ethernet0", some "tagged"⟩]), by simp, rfl⟩⟩

theorem copy_eq_self_of_scalarEq (v w : Vlan) (h : scalarCopyEq v w) :
    copy_vlan_obj_prop v w = v := by
  obtain ⟨h1, h2, h3, h4, h5⟩ := h
  unfold copy_vlan_obj_prop
  rw [← h1, ← h2, ← h3, ← h4, ← h5]

theorem exists_find?_of_mem (l : List Vlan) (p : Vlan → Bool) (x : Vlan)
    (hx : x ∈ l) (hp : p x = true) : ∃ w, l.find? p = some w := by
  cases h : l.find? p with
  | none => exact absurd hp (List.find?_eq_none.mp h x hx)
  | some w => exact ⟨w, rfl⟩

theorem connectMember_noop (d : DevState) (vn : Option String) (ifn : String)
    (tm : Option String)
    (hex : ∃ rl ∈ d.memberRels, rl.vlanName = vn ∧ rl.ifName = ifn)
    (hall : ∀ rl ∈ d.memberRels, rl.vlanName = vn → rl.ifName = ifn →
      rl.tagging_mode = tm) :
    connectMember d vn ifn tm = d := by
  unfold connectMember
  have hany : d.memberRels.any (fun r => r.vlanName == vn && r.ifName == ifn) = true := by
    obtain ⟨rl, hrl, hv, hi⟩ := hex
    exact List.any_eq_true.mpr ⟨rl, hrl, by
      rw [Bool.and_eq_true]
      exact ⟨beq_iff_eq.mpr hv, beq_iff_eq.mpr hi⟩⟩
  rw [if_pos hany]
  have hmap : d.memberRels.map (fun r =>
      if (r.vlanName == vn && r.ifName == ifn) = true
      then { r with tagging_mode := tm } else r) = d.memberRels := by
    have hstep : ∀ r ∈ d.memberRels,
        (if (r.vlanName == vn && r.ifName == ifn) = true
         then { r with tagging_mode := tm } else r) = r := by
      intro r hr
      by_cases hc : (r.vlanName == vn && r.ifName == ifn) = true
      · rw [if_pos hc]
        have h1 := (Bool.and_eq_true _ _ ▸ hc).1
        have h2 := (Bool.and_eq_true _ _ ▸ hc).2
        rw [← hall r hr (eq_of_beq h1) (eq_of_beq h2)]
      · rw [if_neg hc]
    exact (List.map_congr_left hstep).trans (List.map_id' _)
  rw [hmap]

theorem memberLoop_noop (ms : List VlanMemberEntry) :
    ∀ (d : DevState) (w : Vlan)
    (_ : ∀ m ∈ ms, ∃ i, m.ifname = some i ∧ d.interfaces.contains i = true)
    (_ : ∀ m ∈ ms, ∀ i, m.ifname = some i →
      (∃ rl ∈ d.memberRels, rl.vlanName = w.name ∧ rl.ifName = i)
      ∧ (∀ rl ∈ d.memberRels, rl.vlanName = w.name → rl.ifName = i →
          rl.tagging_mode = m.tagging_mode)),
    memberLoop d (some w) ms = (d, none) := by
  induction ms with
  | nil => intro d w _ _; rfl
  | cons m0 rest ih =>
    intro d w hres hfacts
    obtain ⟨i0, hmi, hci⟩ := hres m0 (by simp)
    simp only [memberLoop, hmi, getInterface_of_contains d i0 hci]
    have hfact0 := hfacts m0 (by simp) i0 hmi
    rw [connectMember_noop d w.name i0 m0.tagging_mode hfact0.1 hfact0.2]
    exact ih d w (fun m' hm' => hres m' (by simp [hm']))
      (fun m' hm' i' hi' => hfacts m' (by simp [hm']) i' hi')

theorem insertEntry_noop (d : DevState) (q : Vlan × List VlanMemberEntry)
    (nm : String) (w : Vlan)
    (hnm : q.1.name = some nm) (hne : nm ≠ "")
    (hfw : d.vlans.find? (fun v => v.name == some nm) = some w)
    (hcopy : ∀ u ∈ d.vlans, (u.name == some nm) = true →
      copy_vlan_obj_prop u q.1 = u)
    (hres : ∀ m ∈ q.2, ∃ i, m.ifname = some i ∧ d.interfaces.contains i = true)
    (hfacts : ∀ m ∈ q.2, ∀ i, m.ifname = some i →
      (∃ rl ∈ d.memberRels, rl.vlanName = some nm ∧ rl.ifName = i)
      ∧ (∀ rl ∈ d.memberRels, rl.vlanName = some nm → rl.ifName = i →
          rl.tagging_mode = m.tagging_mode)) :
    insertEntry d q = (d, none) := by
  have hrf : replaceFirst (fun v => v.name == some nm)
      (fun v => copy_vlan_obj_prop v q.1) d.vlans = d.vlans :=
    replaceFirst_eq_self _ _ _ hcopy
  have hq1 : devVlanQuery d (some nm) = .single (some w) := by
    rw [devVlanQuery_named _ _ hne, hfw]
  have hq2 : devVlanQuery ({ d with vlans := (replaceFirst (fun v => v.name == some nm)
      (fun v => copy_vlan_obj_prop v q.1) d.vlans) }) (some nm) = .single (some w) := by
    rw [devVlanQuery_named _ _ hne]
    refine congrArg _ ?_
    show (replaceFirst (fun v => v.name == some nm)
      (fun v => copy_vlan_obj_prop v q.1) d.vlans).find? (fun v => v.name == some nm)
      = some w
    rw [hrf]
    exact hfw
  have hstate : ({ d with vlans := (replaceFirst (fun v => v.name == some nm)
      (fun v => copy_vlan_obj_prop v q.1) d.vlans) } : DevState) = d := by
    rw [hrf]
  have hcomp : insertEntry d q = memberLoop ({ d with vlans :=
      (replaceFirst (fun v => v.name == some nm)
        (fun v => copy_vlan_obj_prop v q.1) d.vlans) }) (some w) q.2 := by
    simp only [insertEntry]
    rw [hnm]
    simp only [hq1, hq2]
  rw [hcomp, hstate]
  have hwname : w.name = some nm := by
    have hb := List.find?_some hfw
    exact eq_of_beq hb
  refine memberLoop_noop q.2 d w hres ?_
  intro m hm i hi
  rw [hwname]
  exact hfacts m hm i hi

theorem insertLoop_noop (snap : List (Vlan × List VlanMemberEntry)) :
    ∀ (d : DevState)
    (_ : ∀ q ∈ snap, ∃ nm, q.1.name = some nm ∧ nm ≠ "")
    (_ : ∀ q ∈ snap, ∃ w, d.vlans.find? (fun v => v.name == q.1.name) = some w)
    (_ : ∀ q ∈ snap, ∀ u ∈ d.vlans, (u.name == q.1.name) = true →
      copy_vlan_obj_prop u q.1 = u)
    (_ : ∀ q ∈ snap, ∀ m ∈ q.2, ∃ i, m.ifname = some i ∧
      d.interfaces.contains i = true)
    (_ : ∀ q ∈ snap, ∀ m ∈ q.2, ∀ i, m.ifname = some i →
      (∃ rl ∈ d.memberRels, rl.vlanName = q.1.name ∧ rl.ifName = i)
      ∧ (∀ rl ∈ d.memberRels, rl.vlanName = q.1.name → rl.ifName = i →
          rl.tagging_mode = m.tagging_mode)),
    insertLoop d snap = (d, none) := by
  induction snap with
  | nil => intro d _ _ _ _ _; rfl
  | cons q rest ih =>
    intro d hname hfind hcopy hres hfacts
    obtain ⟨nm, hnm, hne⟩ := hname q (by simp)
    obtain ⟨w, hw⟩ := hfind q (by simp)
    rw [hnm] at hw
    have hentry := insertEntry_noop d q nm w hnm hne hw
      (fun u hu hb => hcopy q (by simp) u hu (by rw [hnm]; exact hb))
      (hres q (by simp))
      (fun m hm i hi => by
        rw [← hnm]
        exact hfacts q (by simp) m hm i hi)
    simp only [insertLoop]
    rw [hentry]
    exact ih d (fun q' hq' => hname q' (by simp [hq']))
      (fun q' hq' => hfind q' (by simp [hq']))
      (fun q' hq' => hcopy q' (by simp [hq']))
      (fun q' hq' => hres q' (by simp [hq']))
      (fun q' hq' => hfacts q' (by simp [hq']))

theorem insert_vlan_in_db_eq_of_loop (d d' : DevState)
    (snap : List (Vlan × List VlanMemberEntry))
    (h : insertLoop d snap = (d', none)) :
    insert_vlan_in_db d snap = (pruneStale d' snap, none) := by
  simp only [insert_vlan_in_db]
  rw [h]

/-- C8: discovery is idempotent — running fetch→map→reconcile twice with the
same unchanged raw snapshot leaves the store identical to the state after
the first run: the second `insert_vlan_in_db` finds every entity in place
with all copied scalars already equal (the in-place update is a no-op), the
membership upsert re-sets every relationship to the value it already has,
and the pruning pass deletes nothing. -/
theorem c8_idempotent (ipd : Option String → IpDetails) (det : VlanDetails)
    (s : DevState)
    (hstore : (s.vlans.map (fun v => v.name)).Nodup)
    (hname : ∀ q ∈ create_vlan_db_obj ipd det, ∃ nm, q.1.name = some nm ∧ nm ≠ "")
    (hsnd : (snapNames (create_vlan_db_obj ipd det)).Nodup)
    (hres : ∀ q ∈ create_vlan_db_obj ipd det, ∀ m ∈ q.2, ∃ i, m.ifname = some i ∧
      s.interfaces.contains i = true)
    (hmnd : ∀ q ∈ create_vlan_db_obj ipd det, (q.2.map (fun m => m.ifname)).Nodup) :
    (insert_vlan_in_db s (create_vlan_db_obj ipd det)).2 = none
    ∧ insert_vlan_in_db (insert_vlan_in_db s (create_vlan_db_obj ipd det)).1
        (create_vlan_db_obj ipd det) =
      ((insert_vlan_in_db s (create_vlan_db_obj ipd det)).1, none) := by
  obtain ⟨s1, s2, s3, s4, s5, s6, s7⟩ := insert_vlan_in_db_spec s
    (create_vlan_db_obj ipd det) hstore hname hsnd hres hmnd
  refine ⟨s1, ?_⟩
  have huniq : ∀ q ∈ create_vlan_db_obj ipd det,
      ∀ u ∈ (insert_vlan_in_db s (create_vlan_db_obj ipd det)).1.vlans,
      (u.name == q.1.name) = true → u = expectedEntity s q := by
    intro q hq u hu hb
    refine List.inj_on_of_nodup_map s4 hu (s5 q hq) ?_
    show u.name = (expectedEntity s q).name
    rw [expectedEntity_name]
    exact eq_of_beq hb
  have hloopnoop : insertLoop (insert_vlan_in_db s (create_vlan_db_obj ipd det)).1
      (create_vlan_db_obj ipd det) =
      ((insert_vlan_in_db s (create_vlan_db_obj ipd det)).1, none) := by
    refine insertLoop_noop (create_vlan_db_obj ipd det) _ hname ?_ ?_ ?_ ?_
    · intro q hq
      refine exists_find?_of_mem _ _ (expectedEntity s q) (s5 q hq) ?_
      show ((expectedEntity s q).name == q.1.name) = true
      rw [expectedEntity_name]
      exact beq_self_eq_true _
    · intro q hq u hu hb
      rw [huniq q hq u hu hb]
      exact copy_eq_self_of_scalarEq _ _ (expectedEntity_scalar s q)
    · intro q hq m hm
      obtain ⟨i, hi, hci⟩ := hres q hq m hm
      refine ⟨i, hi, ?_⟩
      rw [s2]
      exact hci
    · exact s7
  have hcontains : ∀ v ∈ (insert_vlan_in_db s (create_vlan_db_obj ipd det)).1.vlans,
      (snapNames (create_vlan_db_obj ipd det)).contains v.name = true := by
    intro v hv
    exact mem_contains_names _ _ (s6 v hv)
  rw [insert_vlan_in_db_eq_of_loop _ _ _ hloopnoop]
  rw [pruneStale_noop _ _ hcontains]

/-- Witness for C8: one raw snapshot (`Vlan10` with a tagged `Ethernet0`
member) reconciled into an empty device store twice. -/
theorem c8_idempotent_witness :
    (insert_vlan_in_db ⟨[], [], ["Ethernet0"], []⟩
      (create_vlan_db_obj (fun _ => ⟨[], []⟩)
        ⟨[⟨some 10, some "Vlan10", none⟩], [],
         [⟨some "Vlan10", some "Ethernet0", some "tagged"⟩]⟩)).2 = none
    ∧ insert_vlan_in_db
        (insert_vlan_in_db ⟨[], [], ["Ethernet0"], []⟩
          (create_vlan_db_obj (fun _ => ⟨[], []⟩)
            ⟨[⟨some 10, some "Vlan10", none⟩], [],
             [⟨some "Vlan10", some "Ethernet0", some "tagged"⟩]⟩)).1
        (create_vlan_db_obj (fun _ => ⟨[], []⟩)
          ⟨[⟨some 10, some "Vlan10", none⟩], [],
           [⟨some "Vlan10", some "Ethernet0", some "tagged"⟩]⟩) =
      ((insert_vlan_in_db ⟨[], [], ["Ethernet0"], []⟩
        (create_vlan_db_obj (fun _ => ⟨[], []⟩)
          ⟨[⟨some 10, some "Vlan10", none⟩], [],
           [⟨some "Vlan10", some "Ethernet0", some "tagged"⟩]⟩)).1, none) := by
  have hc : create_vlan_db_obj (fun _ => ⟨[], []⟩)
      ⟨[⟨some 10, some "Vlan10", none⟩], [],
       [⟨some "Vlan10", some "Ethernet0", some "tagged"⟩]⟩ =
      [(⟨some 10, some "Vlan10", none, none, none, some "disable", none, none⟩,
        [⟨some "Vlan10", some "Ethernet0", some "tagged"⟩])] := rfl
  exact c8_idempotent (fun _ => ⟨[], []⟩)
    ⟨[⟨some 10, some "Vlan10", none⟩], [],
     [⟨some "Vlan10", some "Ethernet0", some "tagged"⟩]⟩
    ⟨[], [], ["Ethernet0"], []⟩
    (by decide)
    (fun q hq => by
      rw [hc, List.mem_singleton] at hq
      exact ⟨"Vlan10", by rw [hq], by decide⟩)
    (by rw [hc]; decide)
    (fun q hq m hm => by
      rw [hc, List.mem_singleton] at hq
      rw [hq] at hm
      rw [List.mem_singleton] at hm
      exact ⟨"Ethernet0", by rw [hm], by decide⟩)
    (fun q hq => by
      rw [hc, List.mem_singleton] at hq
      rw [hq]
      decide)
